import Mathlib

/-!
Verification development for the ClimateChic geoAI proof-of-concept
(climatechic_mvp_poc.py).

Embedding choices:
* Geometries are modelled as finite unions of axis-aligned rectangles with
  rational coordinates (the two biogeographic regions in the code are literal
  axis-aligned rectangles; boundaries drawn as rectangles/polygons are
  restricted to this class).  A geometry is a list of rectangles, read as the
  set union of the half-open boxes [x0, x1) x [y0, y1); the closed boxes are
  used for the intersects test, matching the topological-closure semantics of
  the intersects predicate in the geometry library the code calls.
* Area is exact: the plane is sampled on a uniform grid whose pitch divides
  every coordinate denominator, and the area is the cell count divided by the
  squared pitch.  This agrees with Lebesgue area on this class of sets.
* Python floats are modelled as exact rational numbers; round() is modelled
  as round-half-to-even on the exact value and int() as truncation toward 0.
* Python raises ZeroDivisionError on float division by zero, so the analysis
  function is embedded in Except.
-/

/-- An axis-aligned rectangle with rational coordinates, spanning
[x0, x1] x [y0, y1] (empty when x1 < x0 or y1 < y0). -/
structure Rect where
  x0 : ℚ
  x1 : ℚ
  y0 : ℚ
  y1 : ℚ
deriving DecidableEq

/-- A geometry: the union of a finite list of rectangles. -/
abbrev Geom := List Rect

/-- Membership of a point in the half-open box [x0, x1) x [y0, y1). -/
def rectContainsPt (r : Rect) (x y : ℚ) : Bool :=
  decide (r.x0 ≤ x ∧ x < r.x1 ∧ r.y0 ≤ y ∧ y < r.y1)

/-- Coordinate-wise intersection of two rectangles. -/
def rectInter (r s : Rect) : Rect :=
  ⟨max r.x0 s.x0, min r.x1 s.x1, max r.y0 s.y0, min r.y1 s.y1⟩

/-- Whether the CLOSED rectangles meet (this is the semantics of the
intersects predicate of the geometry library: touching boundaries count). -/
def rectIntersects (r s : Rect) : Bool :=
  decide (max r.x0 s.x0 ≤ min r.x1 s.x1 ∧ max r.y0 s.y0 ≤ min r.y1 s.y1)

/-- Model of the intersection method: all pairwise rectangle intersections. -/
def geomInter (g h : Geom) : Geom :=
  g.flatMap fun r => h.map fun s => rectInter r s

/-- Model of the intersects method on unions of closed rectangles. -/
def geomIntersects (g h : Geom) : Bool :=
  g.any fun r => h.any fun s => rectIntersects r s

/-- A positive integer grid pitch adapted to the geometry: the product of all
coordinate denominators. -/
def scaleOf (g : Geom) : ℕ :=
  g.foldr (fun r acc => r.x0.den * r.x1.den * r.y0.den * r.y1.den * acc) 1

/-- Sum of the numerator magnitudes of all coordinates of the geometry. -/
def numMassOf (g : Geom) : ℕ :=
  g.foldr
    (fun r acc =>
      r.x0.num.natAbs + r.x1.num.natAbs + r.y0.num.natAbs + r.y1.num.natAbs + acc)
    0

/-- A strict upper bound for the magnitude of every coordinate of the
geometry. -/
def boundOf (g : Geom) : ℕ := 1 + numMassOf g

/-- Whether the grid cell with lower-left sample point (i/N, j/N) lies inside
the geometry. -/
def coveredB (g : Geom) (N : ℕ) (i j : ℤ) : Bool :=
  g.any fun r => rectContainsPt r ((i : ℚ) / (N : ℚ)) ((j : ℚ) / (N : ℚ))

/-- Number of grid cells of pitch 1/N inside the geometry, sampled over the
index box [-K, K) x [-K, K). -/
def cellCount (g : Geom) (N K : ℕ) : ℕ :=
  (((Finset.Ico (-(K : ℤ)) (K : ℤ)) ×ˢ (Finset.Ico (-(K : ℤ)) (K : ℤ))).filter
    (fun ij => coveredB g N ij.1 ij.2 = true)).card

/-- Exact area of the union of the rectangles of the geometry (model of the
area attribute of the geometry library). -/
def geomArea (g : Geom) : ℚ :=
  (cellCount g (scaleOf g) (scaleOf g * boundOf g) : ℚ) / (scaleOf g : ℚ) ^ 2

/-- Model of union_all(): the rows of the GeoDataFrame are merged into one
geometry; in the union-of-rectangles representation this is the list itself
(all area and intersection computations already treat the list as a set
union, without double counting). -/
def union_all (rows : List Rect) : Geom := rows

/-- A Python number: the code mixes int 0 (the initial max_overlap) with
floats, and the report renders them differently. -/
inductive PyNum where
  | int (z : ℤ)
  | float (q : ℚ)
deriving DecidableEq

/-- Numeric value of a PyNum. -/
def pyNumVal : PyNum → ℚ
  | .int z => z
  | .float q => q

/-- Python int(): truncation toward zero. -/
def truncQ (q : ℚ) : ℤ :=
  if 0 ≤ q then ⌊q⌋ else -⌊-q⌋

/-- Python round() to the nearest integer, half-to-even. -/
def pyRound0 (q : ℚ) : ℤ :=
  let f := ⌊q⌋
  if q - f < 1 / 2 then f
  else if 1 / 2 < q - f then f + 1
  else if f % 2 = 0 then f else f + 1

/-- Python round(q, n) for a float argument, on the exact value. -/
def pyRound (n : ℕ) (q : ℚ) : ℚ :=
  (pyRound0 (q * 10 ^ n) : ℚ) / 10 ^ n

/-- Python round(x, n) preserving the int/float distinction: rounding an int
to n >= 1 digits returns it unchanged (and as an int). -/
def pyRoundNum (n : ℕ) : PyNum → PyNum
  | .int z => .int z
  | .float q => .float (pyRound n q)

/-- Python repr of a float whose value is an exact multiple of 1/100: minimal
digits, at least one fractional digit. -/
def floatRepr (q : ℚ) : String :=
  let sign := if q < 0 then "-" else ""
  let a := |q|
  let ip := ⌊a⌋
  let d2 := ⌊(a - ip) * 100⌋
  sign ++ toString ip ++ "." ++
    (if d2 % 10 = 0 then toString (d2 / 10)
     else if d2 < 10 then "0" ++ toString d2 else toString d2)

/-- Python str()/repr() of an int or float, as interpolated by the report. -/
def pyNumRepr : PyNum → String
  | .int z => toString z
  | .float q => floatRepr q

/-- A flora record of the FLORA_DATABASE table. -/
structure FloraEntry where
  name : String
  type : String
  chicken_benefit : String
deriving DecidableEq

/-- The FLORA_DATABASE dict, as an ordered association list. -/
def FLORA_DATABASE : List (String × List FloraEntry) :=
  [("Tropical_Rainforest",
    [⟨"Leucaena leucocephala", "Tree", "High-protein forage, shade"⟩,
     ⟨"Moringa oleifera", "Tree", "Vitamins, minerals, forage"⟩,
     ⟨"Paspalum notatum", "Grass", "Ground cover, forage"⟩]),
   ("Tropical_Savanna",
    [⟨"Acacia tortilis", "Tree", "Shade, pods for forage"⟩,
     ⟨"Cenchrus ciliaris", "Grass", "Drought-resistant forage"⟩])]

/-- Python dict.get(key, default). -/
def dictGet {α : Type} (d : List (String × α)) (k : String) (dflt : α) : α :=
  match d.find? (fun kv => kv.1 == k) with
  | some kv => kv.2
  | none => dflt

/-- A row of the BIOGEO_REGIONS_GDF GeoDataFrame. -/
structure Region where
  name : String
  geometry : Rect
deriving DecidableEq

/-- The two hardcoded biogeographic regions.  The first polygon has corners
(33.5, -1.5) and (35.5, 1.5), the second (36.0, -2.0) and (38.0, 0.5). -/
def BIOGEO_REGIONS : List Region :=
  [⟨"Tropical_Rainforest_Region", ⟨33.5, 35.5, -1.5, 1.5⟩⟩,
   ⟨"Tropical_Savanna_Region", ⟨36.0, 38.0, -2.0, 0.5⟩⟩]

/-- Characters before the first occurrence of sep; the whole list if sep does
not occur. -/
def takeBeforeSep (sep : List Char) : List Char → List Char
  | [] => []
  | c :: rest =>
    if sep.isPrefixOf (c :: rest) then [] else c :: takeBeforeSep sep rest

/-- Model of name.split(sep)[0] in Python: the segment before the first
occurrence of the separator. -/
def regionKey (nm : String) : String :=
  String.mk (takeBeforeSep "_Region".toList nm.toList)

/-- The errors the embedded analysis can raise: Python float division by zero
raises ZeroDivisionError. -/
inductive AnalyzeError where
  | zeroDivisionError
deriving DecidableEq

/-- The overlap percentage the loop body computes for one region:
(intersection area / boundary area) * 100. -/
def overlapPercentage (bg : Geom) (reg : Region) : ℚ :=
  geomArea (geomInter bg [reg.geometry]) / geomArea bg * 100

/-- The for-loop of analyze_land over the region rows, carrying the state
(intersected_region, max_overlap).  The division by boundary area raises
ZeroDivisionError when the boundary area is zero. -/
def regionLoop (bg : Geom) :
    List Region → Option String × PyNum → Except AnalyzeError (Option String × PyNum)
  | [], st => .ok st
  | reg :: rest, st =>
    if geomIntersects bg [reg.geometry] = true then
      if geomArea bg = 0 then .error .zeroDivisionError
      else
        let overlap_percentage := overlapPercentage bg reg
        if pyNumVal st.2 < overlap_percentage then
          regionLoop bg rest (some reg.name, .float overlap_percentage)
        else regionLoop bg rest st
    else regionLoop bg rest st

/-- The per-run simulation block of a Plan. -/
structure Simulation where
  land_area_hectares : PyNum
  estimated_trees_year_5 : ℤ
  estimated_chickens_year_2 : ℤ
  black_soldier_fly_production_kg_week : ℤ
  region_overlap_percentage : PyNum
deriving DecidableEq

/-- The Plan record returned by analyze_land. -/
structure Plan where
  biogeographic_region : String
  recommended_flora : List FloraEntry
  simulation : Simulation
deriving DecidableEq

/-- Model of analyze_land(boundary_gdf). -/
def analyze_land (boundary_gdf : List Rect) : Except AnalyzeError Plan :=
  let boundary_geom := union_all boundary_gdf
  match regionLoop boundary_geom BIOGEO_REGIONS (none, PyNum.int 0) with
  | .error e => .error e
  | .ok (intersected_region, max_overlap) =>
    let region_key :=
      match intersected_region with
      | some nm => regionKey nm
      | none => "Tropical_Savanna"
    let area_hectares := geomArea boundary_geom * 10000
    .ok
      { biogeographic_region := region_key
        recommended_flora := dictGet FLORA_DATABASE region_key []
        simulation :=
          { land_area_hectares := PyNum.float (pyRound 2 area_hectares)
            estimated_trees_year_5 := truncQ (area_hectares * 100)
            estimated_chickens_year_2 := truncQ (area_hectares * 50)
            black_soldier_fly_production_kg_week := truncQ (area_hectares * 2)
            region_overlap_percentage := pyRoundNum 1 max_overlap } }

/-- Model of generate_plan_report(plan): the exact f-string of the code. -/
def generate_plan_report (plan : Plan) : String :=
  let report :=
    "CLIMATECHIC RESTORATION PLAN\n=========================" ++ "=========================\nRegion: "
      ++ plan.biogeographic_region
      ++ "\nArea: " ++ pyNumRepr plan.simulation.land_area_hectares
      ++ " hectares\nRegion Overlap: "
      ++ pyNumRepr plan.simulation.region_overlap_percentage
      ++ "%\n\nRECOMMENDED FLORA:\n"
  let report := plan.recommended_flora.foldl
    (fun acc flora =>
      acc ++ "* " ++ flora.name ++ " (" ++ flora.type ++ ") - "
        ++ flora.chicken_benefit ++ "\n")
    report
  report
    ++ "\nPROJECTIONS:\n* Trees (Year 5): "
    ++ toString plan.simulation.estimated_trees_year_5
    ++ "\n* Chickens (Year 2): "
    ++ toString plan.simulation.estimated_chickens_year_2
    ++ "\n* BSF Production: "
    ++ toString plan.simulation.black_soldier_fly_production_kg_week
    ++ " kg/week\n\nOPERATIONAL GUIDELINES:\n* Months 1-3: Soil preparation and pioneer species planting\n* Months 4-6: Introduce nitrogen-fixing plants and cover crops\n* Months 7-12: Establish poultry infrastructure and initial flock\n* Year 2: Scale integrated systems and value-added production\n"

/-! ### Basic facts about the grid model -/

lemma rectContainsPt_iff {r : Rect} {x y : ℚ} :
    rectContainsPt r x y = true ↔ r.x0 ≤ x ∧ x < r.x1 ∧ r.y0 ≤ y ∧ y < r.y1 := by
  simp [rectContainsPt]

lemma coveredB_iff {g : Geom} {N : ℕ} {i j : ℤ} :
    coveredB g N i j = true ↔
      ∃ r ∈ g, rectContainsPt r ((i : ℚ) / (N : ℚ)) ((j : ℚ) / (N : ℚ)) = true := by
  simp [coveredB, List.any_eq_true]

lemma scaleOf_pos (g : Geom) : 0 < scaleOf g := by
  induction g with
  | nil => simp [scaleOf]
  | cons r rest ih =>
    have hx0 := r.x0.den_nz
    have hx1 := r.x1.den_nz
    have hy0 := r.y0.den_nz
    have hy1 := r.y1.den_nz
    simp only [scaleOf, List.foldr_cons]
    simp only [scaleOf] at ih
    exact Nat.mul_pos (Nat.mul_pos (Nat.mul_pos (Nat.mul_pos
      (Nat.pos_of_ne_zero hx0) (Nat.pos_of_ne_zero hx1))
      (Nat.pos_of_ne_zero hy0)) (Nat.pos_of_ne_zero hy1)) ih

/-- The grid pitch N is adapted to a geometry when it clears every coordinate
denominator. -/
def Adapted (N : ℕ) (g : Geom) : Prop :=
  ∀ r ∈ g, r.x0.den ∣ N ∧ r.x1.den ∣ N ∧ r.y0.den ∣ N ∧ r.y1.den ∣ N

lemma adapted_scaleOf (g : Geom) : Adapted (scaleOf g) g := by
  induction g with
  | nil => intro r hr; simp at hr
  | cons t rest ih =>
    intro r hr
    rcases List.mem_cons.mp hr with h | h
    · subst h
      simp only [scaleOf, List.foldr_cons]
      exact ⟨⟨r.x1.den * r.y0.den * r.y1.den * scaleOf rest, by simp only [scaleOf]; ring⟩,
        ⟨r.x0.den * r.y0.den * r.y1.den * scaleOf rest, by simp only [scaleOf]; ring⟩,
        ⟨r.x0.den * r.x1.den * r.y1.den * scaleOf rest, by simp only [scaleOf]; ring⟩,
        ⟨r.x0.den * r.x1.den * r.y0.den * scaleOf rest, by simp only [scaleOf]; ring⟩⟩
    · have := ih r h
      simp only [scaleOf, List.foldr_cons]
      exact ⟨this.1.trans (dvd_mul_left _ _), this.2.1.trans (dvd_mul_left _ _),
        this.2.2.1.trans (dvd_mul_left _ _), this.2.2.2.trans (dvd_mul_left _ _)⟩

lemma Adapted.of_dvd {N M : ℕ} {g : Geom} (h : Adapted N g) (hd : N ∣ M) :
    Adapted M g := fun r hr =>
  ⟨(h r hr).1.trans hd, (h r hr).2.1.trans hd, (h r hr).2.2.1.trans hd,
    (h r hr).2.2.2.trans hd⟩

lemma Adapted.of_subset {N : ℕ} {g h : Geom} (ha : Adapted N g)
    (hs : ∀ r ∈ h, r ∈ g) : Adapted N h := fun r hr => ha r (hs r hr)

lemma rat_abs_le_natAbs (q : ℚ) : |q| ≤ (q.num.natAbs : ℚ) := by
  have hden0 : ((q.den : ℚ)) ≠ 0 := by
    exact_mod_cast q.den_nz
  have h1 : (q.num : ℚ) = q * (q.den : ℚ) :=
    (div_eq_iff hden0).mp (Rat.num_div_den q)
  have h2 : |q| * (q.den : ℚ) = (q.num.natAbs : ℚ) := by
    have ha : ((q.num.natAbs : ℚ)) = |(q.num : ℚ)| := by
      rw [← Int.cast_natCast, Int.natCast_natAbs, Int.cast_abs]
    rw [ha, h1, abs_mul, abs_of_pos (a := (q.den : ℚ)) (by positivity)]
  have h3 : (1 : ℚ) ≤ (q.den : ℚ) := by
    exact_mod_cast Nat.one_le_iff_ne_zero.mpr q.den_nz
  calc |q| ≤ |q| * (q.den : ℚ) := le_mul_of_one_le_right (abs_nonneg q) h3
    _ = _ := h2

lemma rectMass_le_numMassOf {g : Geom} {r : Rect} (hr : r ∈ g) :
    r.x0.num.natAbs + r.x1.num.natAbs + r.y0.num.natAbs + r.y1.num.natAbs
      ≤ numMassOf g := by
  induction g with
  | nil => simp at hr
  | cons t rest ih =>
    rcases List.mem_cons.mp hr with h | h
    · subst h; simp only [numMassOf, List.foldr_cons]; omega
    · have := ih h
      simp only [numMassOf, List.foldr_cons] at *
      omega

lemma coord_lt_boundOf {g : Geom} {r : Rect} (hr : r ∈ g) :
    |r.x0| < (boundOf g : ℚ) ∧ |r.x1| < (boundOf g : ℚ) ∧
    |r.y0| < (boundOf g : ℚ) ∧ |r.y1| < (boundOf g : ℚ) := by
  have hmass := rectMass_le_numMassOf hr
  have hb : ∀ q : ℚ, q.num.natAbs ≤ numMassOf g → |q| < (boundOf g : ℚ) := by
    intro q hq
    calc |q| ≤ (q.num.natAbs : ℚ) := rat_abs_le_natAbs q
      _ ≤ (numMassOf g : ℚ) := by exact_mod_cast hq
      _ < (boundOf g : ℚ) := by
            have : numMassOf g < boundOf g := by unfold boundOf; omega
            exact_mod_cast this
  exact ⟨hb _ (by omega), hb _ (by omega), hb _ (by omega), hb _ (by omega)⟩

lemma coveredB_bounds {g : Geom} {N : ℕ} {i j : ℤ} (hN : 0 < N)
    (h : coveredB g N i j = true) :
    -((N * boundOf g : ℕ) : ℤ) ≤ i ∧ i < ((N * boundOf g : ℕ) : ℤ) ∧
    -((N * boundOf g : ℕ) : ℤ) ≤ j ∧ j < ((N * boundOf g : ℕ) : ℤ) := by
  obtain ⟨r, hr, hc⟩ := coveredB_iff.mp h
  obtain ⟨hx0, hx1, hy0, hy1⟩ := rectContainsPt_iff.mp hc
  obtain ⟨b0, b1, b2, b3⟩ := coord_lt_boundOf hr
  have hNQ : (0 : ℚ) < (N : ℚ) := by exact_mod_cast hN
  have key : ∀ z : ℤ, ∀ a b : ℚ, a ≤ (z : ℚ) / (N : ℚ) → (z : ℚ) / (N : ℚ) < b →
      |a| < (boundOf g : ℚ) → |b| < (boundOf g : ℚ) →
      -((N * boundOf g : ℕ) : ℤ) ≤ z ∧ z < ((N * boundOf g : ℕ) : ℤ) := by
    intro z a b hza hzb hba hbb
    have h1 : a * (N : ℚ) ≤ (z : ℚ) := (le_div_iff₀ hNQ).mp hza
    have h2 : (z : ℚ) < b * (N : ℚ) := (div_lt_iff₀ hNQ).mp hzb
    have hlow : -(((N * boundOf g : ℕ) : ℤ) : ℚ) < (z : ℚ) := by
      have : -((boundOf g : ℚ)) < a := neg_lt_of_abs_lt hba
      have := mul_lt_mul_of_pos_right this hNQ
      push_cast
      nlinarith
    have hhigh : (z : ℚ) < (((N * boundOf g : ℕ) : ℤ) : ℚ) := by
      have : b < (boundOf g : ℚ) := lt_of_abs_lt hbb
      have := mul_lt_mul_of_pos_right this hNQ
      push_cast
      nlinarith
    constructor
    · exact_mod_cast hlow.le
    · exact_mod_cast hhigh
  obtain ⟨l1, l2⟩ := key i r.x0 r.x1 hx0 hx1 b0 b1
  obtain ⟨l3, l4⟩ := key j r.y0 r.y1 hy0 hy1 b2 b3
  exact ⟨l1, l2, l3, l4⟩

lemma cellCount_box_eq {g : Geom} {N K1 K2 : ℕ} (hN : 0 < N)
    (h1 : N * boundOf g ≤ K1) (h2 : N * boundOf g ≤ K2) :
    cellCount g N K1 = cellCount g N K2 := by
  unfold cellCount
  congr 1
  apply Finset.ext
  intro ij
  simp only [Finset.mem_filter, Finset.mem_product, Finset.mem_Ico]
  constructor
  · rintro ⟨-, hcov⟩
    obtain ⟨c1, c2, c3, c4⟩ := coveredB_bounds hN hcov
    have hK2 : ((N * boundOf g : ℕ) : ℤ) ≤ (K2 : ℤ) := by exact_mod_cast h2
    refine ⟨⟨⟨?_, ?_⟩, ?_, ?_⟩, hcov⟩ <;> omega
  · rintro ⟨-, hcov⟩
    obtain ⟨c1, c2, c3, c4⟩ := coveredB_bounds hN hcov
    have hK1 : ((N * boundOf g : ℕ) : ℤ) ≤ (K1 : ℤ) := by exact_mod_cast h1
    refine ⟨⟨⟨?_, ?_⟩, ?_, ?_⟩, hcov⟩ <;> omega

/-! ### Grid refinement: the sampled count is scale invariant -/

lemma adapted_exists_num {q : ℚ} {N : ℕ} (hd : q.den ∣ N) :
    ∃ m : ℤ, (m : ℚ) = (N : ℚ) * q := by
  obtain ⟨t, ht⟩ := hd
  have hden0 : ((q.den : ℚ)) ≠ 0 := by exact_mod_cast q.den_nz
  have h1 : (q.num : ℚ) = q * (q.den : ℚ) :=
    (div_eq_iff hden0).mp (Rat.num_div_den q)
  refine ⟨q.num * (t : ℤ), ?_⟩
  push_cast [ht]
  rw [h1]
  ring

lemma adapted_le_div_iff {q : ℚ} {N k : ℕ} {i : ℤ} (hd : q.den ∣ N)
    (hN : 0 < N) (hk : 0 < k) :
    (q ≤ (i : ℚ) / ((k * N : ℕ) : ℚ)) ↔ (q ≤ ((i / (k : ℤ) : ℤ) : ℚ) / (N : ℚ)) := by
  obtain ⟨m, hm⟩ := adapted_exists_num hd
  have hNQ : (0 : ℚ) < (N : ℚ) := by exact_mod_cast hN
  have hkNQ : (0 : ℚ) < ((k * N : ℕ) : ℚ) := by
    have := Nat.mul_pos hk hN
    exact_mod_cast this
  have hkZ : (0 : ℤ) < (k : ℤ) := by exact_mod_cast hk
  rw [le_div_iff₀ hkNQ, le_div_iff₀ hNQ]
  have e1 : q * ((k * N : ℕ) : ℚ) = ((m * (k : ℤ) : ℤ) : ℚ) := by
    push_cast
    linear_combination (k : ℚ) * hm.symm
  have e2 : q * (N : ℚ) = ((m : ℤ) : ℚ) := by
    push_cast
    linear_combination hm.symm
  rw [e1, e2, Int.cast_le, Int.cast_le]
  exact (Int.le_ediv_iff_mul_le hkZ).symm

lemma adapted_div_lt_iff {q : ℚ} {N k : ℕ} {i : ℤ} (hd : q.den ∣ N)
    (hN : 0 < N) (hk : 0 < k) :
    ((i : ℚ) / ((k * N : ℕ) : ℚ) < q) ↔ (((i / (k : ℤ) : ℤ) : ℚ) / (N : ℚ) < q) := by
  obtain ⟨m, hm⟩ := adapted_exists_num hd
  have hNQ : (0 : ℚ) < (N : ℚ) := by exact_mod_cast hN
  have hkNQ : (0 : ℚ) < ((k * N : ℕ) : ℚ) := by
    have := Nat.mul_pos hk hN
    exact_mod_cast this
  have hkZ : (0 : ℤ) < (k : ℤ) := by exact_mod_cast hk
  rw [div_lt_iff₀ hkNQ, div_lt_iff₀ hNQ]
  have e1 : q * ((k * N : ℕ) : ℚ) = ((m * (k : ℤ) : ℤ) : ℚ) := by
    push_cast
    linear_combination (k : ℚ) * hm.symm
  have e2 : q * (N : ℚ) = ((m : ℤ) : ℚ) := by
    push_cast
    linear_combination hm.symm
  rw [e1, e2, Int.cast_lt, Int.cast_lt]
  exact (Int.ediv_lt_iff_lt_mul hkZ).symm

lemma coveredB_mul_iff {g : Geom} {N k : ℕ} {i j : ℤ} (hN : 0 < N) (hk : 0 < k)
    (hA : Adapted N g) :
    (coveredB g (k * N) i j = true) ↔
      (coveredB g N (i / (k : ℤ)) (j / (k : ℤ)) = true) := by
  rw [coveredB_iff, coveredB_iff]
  constructor
  · rintro ⟨r, hr, hc⟩
    obtain ⟨hx0, hx1, hy0, hy1⟩ := rectContainsPt_iff.mp hc
    obtain ⟨d0, d1, d2, d3⟩ := hA r hr
    refine ⟨r, hr, rectContainsPt_iff.mpr ⟨?_, ?_, ?_, ?_⟩⟩
    · exact (adapted_le_div_iff d0 hN hk).mp hx0
    · exact (adapted_div_lt_iff d1 hN hk).mp hx1
    · exact (adapted_le_div_iff d2 hN hk).mp hy0
    · exact (adapted_div_lt_iff d3 hN hk).mp hy1
  · rintro ⟨r, hr, hc⟩
    obtain ⟨hx0, hx1, hy0, hy1⟩ := rectContainsPt_iff.mp hc
    obtain ⟨d0, d1, d2, d3⟩ := hA r hr
    refine ⟨r, hr, rectContainsPt_iff.mpr ⟨?_, ?_, ?_, ?_⟩⟩
    · exact (adapted_le_div_iff d0 hN hk).mpr hx0
    · exact (adapted_div_lt_iff d1 hN hk).mpr hx1
    · exact (adapted_le_div_iff d2 hN hk).mpr hy0
    · exact (adapted_div_lt_iff d3 hN hk).mpr hy1

lemma ediv_box_of_box {K k : ℕ} {i : ℤ} (hk : 0 < (k : ℤ))
    (h : -((k * K : ℕ) : ℤ) ≤ i ∧ i < ((k * K : ℕ) : ℤ)) :
    -(K : ℤ) ≤ i / (k : ℤ) ∧ i / (k : ℤ) < (K : ℤ) := by
  constructor
  · rw [Int.le_ediv_iff_mul_le hk]
    have : -(K : ℤ) * (k : ℤ) = -((k * K : ℕ) : ℤ) := by push_cast; ring
    rw [this]
    exact h.1
  · rw [Int.ediv_lt_iff_lt_mul hk]
    have : (K : ℤ) * (k : ℤ) = ((k * K : ℕ) : ℤ) := by push_cast; ring
    rw [this]
    exact h.2

lemma box_of_recompose {K k : ℕ} {a b : ℤ} (hk : 0 < (k : ℤ))
    (ha : -(K : ℤ) ≤ a ∧ a < (K : ℤ)) (hb : 0 ≤ b ∧ b < (k : ℤ)) :
    -((k * K : ℕ) : ℤ) ≤ (k : ℤ) * a + b ∧ (k : ℤ) * a + b < ((k * K : ℕ) : ℤ) := by
  have e : ((k * K : ℕ) : ℤ) = (k : ℤ) * (K : ℤ) := by push_cast; ring
  constructor
  · have h1 : (k : ℤ) * (-(K : ℤ)) ≤ (k : ℤ) * a :=
      mul_le_mul_of_nonneg_left ha.1 hk.le
    rw [e]
    linarith [hb.1]
  · have h2 : a + 1 ≤ (K : ℤ) := ha.2
    have h3 : (k : ℤ) * (a + 1) ≤ (k : ℤ) * (K : ℤ) :=
      mul_le_mul_of_nonneg_left h2 hk.le
    rw [e]
    linarith [hb.2]

lemma recompose_ediv {k : ℕ} {a b : ℤ} (hk : 0 < (k : ℤ))
    (hb : 0 ≤ b ∧ b < (k : ℤ)) : ((k : ℤ) * a + b) / (k : ℤ) = a := by
  rw [show (k : ℤ) * a + b = b + a * (k : ℤ) by ring,
    Int.add_mul_ediv_right _ _ (by omega : (k : ℤ) ≠ 0),
    Int.ediv_eq_zero_of_lt hb.1 hb.2, zero_add]

lemma recompose_emod {k : ℕ} {a b : ℤ} (hk : 0 < (k : ℤ))
    (hb : 0 ≤ b ∧ b < (k : ℤ)) : ((k : ℤ) * a + b) % (k : ℤ) = b := by
  rw [show (k : ℤ) * a + b = b + (k : ℤ) * a by ring,
    Int.add_mul_emod_self_left, Int.emod_eq_of_lt hb.1 hb.2]

lemma cellCount_mul {g : Geom} {N k K : ℕ} (hN : 0 < N) (hk : 0 < k)
    (hA : Adapted N g) :
    cellCount g (k * N) (k * K) = k ^ 2 * cellCount g N K := by
  have hkZ : (0 : ℤ) < (k : ℤ) := by exact_mod_cast hk
  unfold cellCount
  set box : Finset (ℤ × ℤ) :=
    (Finset.Ico (-((k * K : ℕ) : ℤ)) ((k * K : ℕ) : ℤ)) ×ˢ
      (Finset.Ico (-((k * K : ℕ) : ℤ)) ((k * K : ℕ) : ℤ)) with hbox
  set cbox : Finset (ℤ × ℤ) :=
    (Finset.Ico (-(K : ℤ)) (K : ℤ)) ×ˢ (Finset.Ico (-(K : ℤ)) (K : ℤ)) with hcbox
  set Sf := box.filter (fun ij => coveredB g (k * N) ij.1 ij.2 = true) with hSf
  set Sc := cbox.filter (fun ij => coveredB g N ij.1 ij.2 = true) with hSc
  have main : Sf.card =
      (Sc ×ˢ ((Finset.Ico (0 : ℤ) (k : ℤ)) ×ˢ (Finset.Ico (0 : ℤ) (k : ℤ)))).card := by
    apply Finset.card_nbij'
      (i := fun ij => ((ij.1 / (k : ℤ), ij.2 / (k : ℤ)), (ij.1 % (k : ℤ), ij.2 % (k : ℤ))))
      (j := fun p => ((k : ℤ) * p.1.1 + p.2.1, (k : ℤ) * p.1.2 + p.2.2))
    · intro ij hij
      rw [hSf, Finset.mem_filter, hbox, Finset.mem_product, Finset.mem_Ico,
        Finset.mem_Ico] at hij
      obtain ⟨⟨hi, hj⟩, hcov⟩ := hij
      have hdi := ediv_box_of_box hkZ ⟨hi.1, hi.2⟩
      have hdj := ediv_box_of_box hkZ ⟨hj.1, hj.2⟩
      have hcov2 := (coveredB_mul_iff hN hk hA).mp hcov
      simp only [Finset.mem_product, Finset.mem_Ico, hSc, Finset.mem_filter, hcbox]
      refine ⟨⟨⟨hdi, hdj⟩, hcov2⟩, ⟨?_, ?_⟩, ?_, ?_⟩
      · exact Int.emod_nonneg _ (by omega)
      · exact Int.emod_lt_of_pos _ hkZ
      · exact Int.emod_nonneg _ (by omega)
      · exact Int.emod_lt_of_pos _ hkZ
    · intro p hp
      simp only [Finset.mem_product, Finset.mem_Ico, hSc, Finset.mem_filter,
        hcbox] at hp
      obtain ⟨⟨⟨ha, hb⟩, hcov⟩, hu, hv⟩ := hp
      have hb1 := box_of_recompose hkZ ⟨ha.1, ha.2⟩ ⟨hu.1, hu.2⟩
      have hb2 := box_of_recompose hkZ ⟨hb.1, hb.2⟩ ⟨hv.1, hv.2⟩
      rw [hSf, Finset.mem_filter, hbox, Finset.mem_product, Finset.mem_Ico,
        Finset.mem_Ico]
      refine ⟨⟨⟨hb1.1, hb1.2⟩, hb2.1, hb2.2⟩, ?_⟩
      rw [coveredB_mul_iff hN hk hA]
      rw [recompose_ediv hkZ ⟨hu.1, hu.2⟩, recompose_ediv hkZ ⟨hv.1, hv.2⟩]
      exact hcov
    · intro ij hij
      exact Prod.ext (Int.ediv_add_emod ij.1 (k : ℤ)) (Int.ediv_add_emod ij.2 (k : ℤ))
    · intro p hp
      simp only [Finset.mem_product, Finset.mem_Ico, hSc, Finset.mem_filter,
        hcbox] at hp
      obtain ⟨⟨⟨ha, hb⟩, hcov⟩, hu, hv⟩ := hp
      exact Prod.ext
        (Prod.ext (recompose_ediv hkZ ⟨hu.1, hu.2⟩) (recompose_ediv hkZ ⟨hv.1, hv.2⟩))
        (Prod.ext (recompose_emod hkZ ⟨hu.1, hu.2⟩) (recompose_emod hkZ ⟨hv.1, hv.2⟩))
  rw [main, Finset.card_product, Finset.card_product, Int.card_Ico]
  have : ((k : ℤ) - 0).toNat = k := by omega
  rw [this]
  ring

/-! ### The area function: invariance and its consequences -/

lemma geomArea_eq_cellCount (g : Geom) {N K : ℕ} (hN : 0 < N) (hA : Adapted N g)
    (hK : N * boundOf g ≤ K) :
    geomArea g = (cellCount g N K : ℚ) / (N : ℚ) ^ 2 := by
  have hS : 0 < scaleOf g := scaleOf_pos g
  have hAS : Adapted (scaleOf g) g := adapted_scaleOf g
  have c1 : cellCount g N K = cellCount g N (N * boundOf g) :=
    cellCount_box_eq hN hK le_rfl
  have c2 : cellCount g (scaleOf g * N) (scaleOf g * (N * boundOf g)) =
      scaleOf g ^ 2 * cellCount g N (N * boundOf g) := cellCount_mul hN hS hA
  have c3 : cellCount g (N * scaleOf g) (N * (scaleOf g * boundOf g)) =
      N ^ 2 * cellCount g (scaleOf g) (scaleOf g * boundOf g) :=
    cellCount_mul hS hN hAS
  have e1 : scaleOf g * N = N * scaleOf g := Nat.mul_comm _ _
  have e2 : scaleOf g * (N * boundOf g) = N * (scaleOf g * boundOf g) := by ring
  rw [e1, e2, c3] at c2
  have hSQ : ((scaleOf g : ℚ)) ≠ 0 := by
    have : (0 : ℚ) < (scaleOf g : ℚ) := by exact_mod_cast hS
    exact this.ne'
  have hNQ : ((N : ℚ)) ≠ 0 := by
    have : (0 : ℚ) < (N : ℚ) := by exact_mod_cast hN
    exact this.ne'
  have c2q : ((N : ℚ)) ^ 2 * (cellCount g (scaleOf g) (scaleOf g * boundOf g) : ℚ) =
      ((scaleOf g : ℚ)) ^ 2 * (cellCount g N (N * boundOf g) : ℚ) := by
    exact_mod_cast congrArg (fun n : ℕ => (n : ℚ)) c2
  unfold geomArea
  rw [c1]
  field_simp
  linear_combination c2q

lemma geomArea_nonneg (g : Geom) : 0 ≤ geomArea g := by
  unfold geomArea
  positivity

lemma geomArea_nil : geomArea [] = 0 := by
  unfold geomArea cellCount
  simp [coveredB]

lemma mem_geomInter {t : Rect} {g h : Geom} :
    t ∈ geomInter g h ↔ ∃ r ∈ g, ∃ s ∈ h, t = rectInter r s := by
  simp only [geomInter, List.mem_flatMap, List.mem_map]
  constructor
  · rintro ⟨r, hr, s, hs, rfl⟩
    exact ⟨r, hr, s, hs, rfl⟩
  · rintro ⟨r, hr, s, hs, rfl⟩
    exact ⟨r, hr, s, hs, rfl⟩

lemma coveredB_inter_imp {g h : Geom} {N : ℕ} {i j : ℤ}
    (hc : coveredB (geomInter g h) N i j = true) : coveredB g N i j = true := by
  rw [coveredB_iff] at hc ⊢
  obtain ⟨t, ht, hcont⟩ := hc
  obtain ⟨r, hr, s, hs, rfl⟩ := mem_geomInter.mp ht
  refine ⟨r, hr, ?_⟩
  rw [rectContainsPt_iff] at hcont ⊢
  simp only [rectInter] at hcont
  obtain ⟨h1, h2, h3, h4⟩ := hcont
  exact ⟨le_trans (le_max_left _ _) h1, lt_of_lt_of_le h2 (min_le_left _ _),
    le_trans (le_max_left _ _) h3, lt_of_lt_of_le h4 (min_le_left _ _)⟩

lemma geomArea_inter_le (g h : Geom) : geomArea (geomInter g h) ≤ geomArea g := by
  have hSg := scaleOf_pos g
  have hSi := scaleOf_pos (geomInter g h)
  have hNpos : 0 < scaleOf g * scaleOf (geomInter g h) := Nat.mul_pos hSg hSi
  have hAg : Adapted (scaleOf g * scaleOf (geomInter g h)) g :=
    (adapted_scaleOf g).of_dvd (dvd_mul_right _ _)
  have hAi : Adapted (scaleOf g * scaleOf (geomInter g h)) (geomInter g h) :=
    (adapted_scaleOf _).of_dvd (dvd_mul_left _ _)
  rw [geomArea_eq_cellCount g hNpos hAg
      (le_max_left (scaleOf g * scaleOf (geomInter g h) * boundOf g)
        (scaleOf g * scaleOf (geomInter g h) * boundOf (geomInter g h))),
    geomArea_eq_cellCount (geomInter g h) hNpos hAi
      (le_max_right (scaleOf g * scaleOf (geomInter g h) * boundOf g)
        (scaleOf g * scaleOf (geomInter g h) * boundOf (geomInter g h)))]
  apply div_le_div_of_nonneg_right _ (by positivity)
  apply Nat.cast_le.mpr
  apply Finset.card_le_card
  intro ij hij
  rw [Finset.mem_filter] at hij ⊢
  exact ⟨hij.1, coveredB_inter_imp hij.2⟩

lemma numMassOf_append (l1 l2 : Geom) :
    numMassOf (l1 ++ l2) = numMassOf l1 + numMassOf l2 := by
  induction l1 with
  | nil => simp [numMassOf]
  | cons r rest ih =>
    simp only [numMassOf, List.foldr_cons, List.cons_append] at *
    omega

lemma coveredB_append {l1 l2 : Geom} {N : ℕ} {i j : ℤ} :
    coveredB (l1 ++ l2) N i j = (coveredB l1 N i j || coveredB l2 N i j) := by
  simp [coveredB, List.any_append]

lemma containsPt_imp_intersects {r s : Rect} {x y : ℚ}
    (h1 : rectContainsPt r x y = true) (h2 : rectContainsPt s x y = true) :
    rectIntersects r s = true := by
  rw [rectContainsPt_iff] at h1 h2
  rw [rectIntersects]
  simp only [decide_eq_true_eq]
  constructor
  · exact le_trans (max_le h1.1 h2.1)
      (le_trans (le_of_lt (lt_min h1.2.1 h2.2.1)) le_rfl)
  · exact le_trans (max_le h1.2.2.1 h2.2.2.1)
      (le_trans (le_of_lt (lt_min h1.2.2.2 h2.2.2.2)) le_rfl)

lemma geomArea_append {l1 l2 : Geom}
    (hdisj : ∀ r ∈ l1, ∀ s ∈ l2, rectIntersects r s = false) :
    geomArea (l1 ++ l2) = geomArea l1 + geomArea l2 := by
  have h1 := scaleOf_pos (l1 ++ l2)
  have hA12 : Adapted (scaleOf (l1 ++ l2)) (l1 ++ l2) := adapted_scaleOf _
  have hA1 : Adapted (scaleOf (l1 ++ l2)) l1 :=
    hA12.of_subset (fun r hr => List.mem_append_left _ hr)
  have hA2 : Adapted (scaleOf (l1 ++ l2)) l2 :=
    hA12.of_subset (fun r hr => List.mem_append_right _ hr)
  have hb1 : scaleOf (l1 ++ l2) * boundOf l1 ≤
      scaleOf (l1 ++ l2) * boundOf (l1 ++ l2) := by
    apply Nat.mul_le_mul_left
    unfold boundOf
    rw [numMassOf_append]
    omega
  have hb2 : scaleOf (l1 ++ l2) * boundOf l2 ≤
      scaleOf (l1 ++ l2) * boundOf (l1 ++ l2) := by
    apply Nat.mul_le_mul_left
    unfold boundOf
    rw [numMassOf_append]
    omega
  rw [geomArea_eq_cellCount (l1 ++ l2) h1 hA12 le_rfl,
    geomArea_eq_cellCount l1 h1 hA1 hb1, geomArea_eq_cellCount l2 h1 hA2 hb2,
    div_add_div_same]
  congr 1
  have hcount : cellCount (l1 ++ l2) (scaleOf (l1 ++ l2))
        (scaleOf (l1 ++ l2) * boundOf (l1 ++ l2)) =
      cellCount l1 (scaleOf (l1 ++ l2)) (scaleOf (l1 ++ l2) * boundOf (l1 ++ l2)) +
      cellCount l2 (scaleOf (l1 ++ l2)) (scaleOf (l1 ++ l2) * boundOf (l1 ++ l2)) := by
    unfold cellCount
    have heq : ∀ (box : Finset (ℤ × ℤ)),
        box.filter (fun ij => coveredB (l1 ++ l2) (scaleOf (l1 ++ l2)) ij.1 ij.2 = true)
          = box.filter (fun ij => coveredB l1 (scaleOf (l1 ++ l2)) ij.1 ij.2 = true) ∪
            box.filter (fun ij => coveredB l2 (scaleOf (l1 ++ l2)) ij.1 ij.2 = true) := by
      intro box
      ext ij
      simp only [Finset.mem_filter, Finset.mem_union, coveredB_append,
        Bool.or_eq_true]
      tauto
    rw [heq]
    apply Finset.card_union_of_disjoint
    rw [Finset.disjoint_left]
    intro ij hij1 hij2
    rw [Finset.mem_filter] at hij1 hij2
    obtain ⟨r, hr, hcr⟩ := coveredB_iff.mp hij1.2
    obtain ⟨s, hs, hcs⟩ := coveredB_iff.mp hij2.2
    have := containsPt_imp_intersects hcr hcs
    rw [hdisj r hr s hs] at this
    exact Bool.false_ne_true this
  exact_mod_cast hcount

lemma geomArea_pairwise_sum {b : List Rect}
    (h : b.Pairwise fun r s => rectIntersects r s = false) :
    geomArea b = (b.map fun r => geomArea [r]).sum := by
  induction b with
  | nil => simp [geomArea_nil]
  | cons r rest ih =>
    rw [List.pairwise_cons] at h
    have happ : geomArea (r :: rest) = geomArea [r] + geomArea rest := by
      have : geomArea ([r] ++ rest) = geomArea [r] + geomArea rest :=
        geomArea_append (fun t ht s hs => by
          rw [List.mem_singleton] at ht
          subst ht
          exact h.1 s hs)
      simpa using this
    rw [happ, ih h.2]
    simp

/-! ### Exact area of a single rectangle -/

lemma scaled_le_iff {S : ℕ} {q : ℚ} {m : ℤ} (hSQ : (0 : ℚ) < (S : ℚ))
    (hm : (m : ℚ) = (S : ℚ) * q) (i : ℤ) :
    (q ≤ (i : ℚ) / (S : ℚ)) ↔ m ≤ i := by
  rw [le_div_iff₀ hSQ, show q * (S : ℚ) = ((m : ℤ) : ℚ) by rw [hm]; ring,
    Int.cast_le]

lemma scaled_lt_iff {S : ℕ} {q : ℚ} {m : ℤ} (hSQ : (0 : ℚ) < (S : ℚ))
    (hm : (m : ℚ) = (S : ℚ) * q) (i : ℤ) :
    ((i : ℚ) / (S : ℚ) < q) ↔ i < m := by
  rw [div_lt_iff₀ hSQ, show q * (S : ℚ) = ((m : ℤ) : ℚ) by rw [hm]; ring,
    Int.cast_lt]

lemma scaled_bounds {S B : ℕ} {q : ℚ} {m : ℤ} (hSQ : (0 : ℚ) < (S : ℚ))
    (hm : (m : ℚ) = (S : ℚ) * q) (hb : |q| < (B : ℚ)) :
    -((S * B : ℕ) : ℤ) < m ∧ m < ((S * B : ℕ) : ℤ) := by
  have h1 : -(B : ℚ) < q := neg_lt_of_abs_lt hb
  have h2 : q < (B : ℚ) := lt_of_abs_lt hb
  have l1 : -(((S * B : ℕ) : ℤ) : ℚ) < (m : ℚ) := by
    have h3 := mul_lt_mul_of_pos_left h1 hSQ
    rw [← hm] at h3
    push_cast
    linarith
  have l2 : (m : ℚ) < (((S * B : ℕ) : ℤ) : ℚ) := by
    have h3 := mul_lt_mul_of_pos_left h2 hSQ
    rw [← hm] at h3
    push_cast
    linarith
  exact ⟨by exact_mod_cast l1, by exact_mod_cast l2⟩

lemma toNat_width {S : ℕ} {a b : ℚ} {ma mb : ℤ} (hSQ : (0 : ℚ) < (S : ℚ))
    (hma : (ma : ℚ) = (S : ℚ) * a) (hmb : (mb : ℚ) = (S : ℚ) * b) :
    (((mb - ma).toNat : ℕ) : ℚ) = (S : ℚ) * max 0 (b - a) := by
  rcases le_total a b with h | h
  · have hle : ma ≤ mb := by
      have h3 := mul_le_mul_of_nonneg_left h hSQ.le
      have : (ma : ℚ) ≤ (mb : ℚ) := by rw [hma, hmb]; linarith
      exact_mod_cast this
    have ht : (((mb - ma).toNat : ℕ) : ℚ) = ((mb : ℚ) - (ma : ℚ)) := by
      have := Int.toNat_of_nonneg (by omega : (0 : ℤ) ≤ mb - ma)
      exact_mod_cast congrArg (fun z : ℤ => (z : ℚ)) this
    rw [ht, hma, hmb, max_eq_right (by linarith : (0 : ℚ) ≤ b - a)]
    ring
  · have hle : mb ≤ ma := by
      have h3 := mul_le_mul_of_nonneg_left h hSQ.le
      have : (mb : ℚ) ≤ (ma : ℚ) := by rw [hma, hmb]; linarith
      exact_mod_cast this
    have ht : (mb - ma).toNat = 0 := by omega
    rw [ht, max_eq_left (by linarith : b - a ≤ 0)]
    simp

lemma geomArea_single (r : Rect) :
    geomArea [r] = max 0 (r.x1 - r.x0) * max 0 (r.y1 - r.y0) := by
  have hS : 0 < scaleOf [r] := scaleOf_pos [r]
  have hSQ : (0 : ℚ) < (scaleOf [r] : ℚ) := by exact_mod_cast hS
  obtain ⟨d0, d1, d2, d3⟩ := adapted_scaleOf [r] r (by simp)
  obtain ⟨m0, hm0⟩ := adapted_exists_num d0
  obtain ⟨m1, hm1⟩ := adapted_exists_num d1
  obtain ⟨n0, hn0⟩ := adapted_exists_num d2
  obtain ⟨n1, hn1⟩ := adapted_exists_num d3
  obtain ⟨b0, b1, b2, b3⟩ := coord_lt_boundOf (g := [r]) (r := r) (by simp)
  have hB0 := scaled_bounds hSQ hm0 b0
  have hB1 := scaled_bounds hSQ hm1 b1
  have hB2 := scaled_bounds hSQ hn0 b2
  have hB3 := scaled_bounds hSQ hn1 b3
  have hcov : ∀ i j : ℤ, (coveredB [r] (scaleOf [r]) i j = true) ↔
      (m0 ≤ i ∧ i < m1 ∧ n0 ≤ j ∧ j < n1) := by
    intro i j
    rw [coveredB_iff]
    constructor
    · rintro ⟨t, ht, hc⟩
      rw [List.mem_singleton] at ht
      subst ht
      rw [rectContainsPt_iff] at hc
      exact ⟨(scaled_le_iff hSQ hm0 i).mp hc.1, (scaled_lt_iff hSQ hm1 i).mp hc.2.1,
        (scaled_le_iff hSQ hn0 j).mp hc.2.2.1, (scaled_lt_iff hSQ hn1 j).mp hc.2.2.2⟩
    · rintro ⟨h1, h2, h3, h4⟩
      refine ⟨r, by simp, rectContainsPt_iff.mpr
        ⟨(scaled_le_iff hSQ hm0 i).mpr h1, (scaled_lt_iff hSQ hm1 i).mpr h2,
         (scaled_le_iff hSQ hn0 j).mpr h3, (scaled_lt_iff hSQ hn1 j).mpr h4⟩⟩
  have hfilter : (((Finset.Ico (-((scaleOf [r] * boundOf [r] : ℕ) : ℤ))
        ((scaleOf [r] * boundOf [r] : ℕ) : ℤ)) ×ˢ
      (Finset.Ico (-((scaleOf [r] * boundOf [r] : ℕ) : ℤ))
        ((scaleOf [r] * boundOf [r] : ℕ) : ℤ))).filter
      (fun ij => coveredB [r] (scaleOf [r]) ij.1 ij.2 = true)) =
      (Finset.Ico m0 m1) ×ˢ (Finset.Ico n0 n1) := by
    ext ij
    simp only [Finset.mem_filter, Finset.mem_product, Finset.mem_Ico, hcov]
    constructor
    · rintro ⟨-, h⟩
      exact ⟨⟨h.1, h.2.1⟩, h.2.2.1, h.2.2.2⟩
    · rintro ⟨⟨hi1, hi2⟩, hj1, hj2⟩
      obtain ⟨u0, u1⟩ := hB0
      obtain ⟨v0, v1⟩ := hB1
      obtain ⟨w0, w1⟩ := hB2
      obtain ⟨z0, z1⟩ := hB3
      exact ⟨⟨⟨by omega, by omega⟩, by omega, by omega⟩, hi1, hi2, hj1, hj2⟩
  unfold geomArea cellCount
  rw [hfilter, Finset.card_product, Int.card_Ico, Int.card_Ico]
  have e : ((((m1 - m0).toNat * (n1 - n0).toNat : ℕ)) : ℚ) =
      (((m1 - m0).toNat : ℕ) : ℚ) * (((n1 - n0).toNat : ℕ) : ℚ) := by push_cast; ring
  rw [e, toNat_width hSQ hm0 hm1, toNat_width hSQ hn0 hn1]
  field_simp
  ring

/-! ### Characterization of the region loop -/

/-- The percentage the loop considers for a region: the computed overlap
percentage when the intersects test passes, and 0 (no effect on the strict
maximum tracking, whose state is always nonnegative) otherwise. -/
def pctOf (bg : Geom) (reg : Region) : ℚ :=
  if geomIntersects bg [reg.geometry] = true then overlapPercentage bg reg else 0

@[simp] lemma pyNumVal_float (q : ℚ) : pyNumVal (.float q) = q := rfl

@[simp] lemma pyNumVal_int (z : ℤ) : pyNumVal (.int z) = (z : ℚ) := rfl

lemma le_foldl_max (l : List ℚ) (m : ℚ) : m ≤ l.foldl max m := by
  induction l generalizing m with
  | nil => simp
  | cons p ps ih =>
    simp only [List.foldl_cons]
    exact le_trans (le_max_left m p) (ih (max m p))

lemma regionLoop_char (bg : Geom) (hbg : geomArea bg ≠ 0) :
    ∀ (regs : List Region) (c : Option String) (mPy : PyNum),
      0 ≤ pyNumVal mPy →
      regionLoop bg regs (c, mPy) = .ok (
        if pyNumVal mPy < (regs.map (pctOf bg)).foldl max (pyNumVal mPy)
        then ((regs.find? fun reg =>
                pctOf bg reg = (regs.map (pctOf bg)).foldl max (pyNumVal mPy)).map
                  Region.name,
              PyNum.float ((regs.map (pctOf bg)).foldl max (pyNumVal mPy)))
        else (c, mPy)) := by
  intro regs
  induction regs with
  | nil =>
    intro c mPy hm
    simp [regionLoop]
  | cons reg rest ih =>
    intro c mPy hm
    by_cases hI : geomIntersects bg [reg.geometry] = true
    · have hpct : pctOf bg reg = overlapPercentage bg reg := if_pos hI
      by_cases hup : pyNumVal mPy < overlapPercentage bg reg
      · -- the head region strictly improves the maximum: state is replaced
        have hstep : regionLoop bg (reg :: rest) (c, mPy) =
            regionLoop bg rest (some reg.name,
              PyNum.float (overlapPercentage bg reg)) := by
          simp [regionLoop, hI, hbg, hup]
        have h0 : (0 : ℚ) ≤ pyNumVal (PyNum.float (overlapPercentage bg reg)) :=
          le_trans hm hup.le
        rw [hstep, ih (some reg.name) _ h0]
        simp only [pyNumVal_float]
        have hM : ((reg :: rest).map (pctOf bg)).foldl max (pyNumVal mPy) =
            (rest.map (pctOf bg)).foldl max (overlapPercentage bg reg) := by
          simp only [List.map_cons, List.foldl_cons, hpct]
          congr 1
          exact max_eq_right hup.le
        have hmM : pyNumVal mPy <
            ((reg :: rest).map (pctOf bg)).foldl max (pyNumVal mPy) := by
          rw [hM]
          exact lt_of_lt_of_le hup (le_foldl_max _ _)
        rw [if_pos hmM]
        by_cases hpm : overlapPercentage bg reg =
            (rest.map (pctOf bg)).foldl max (overlapPercentage bg reg)
        · have hnotlt : ¬ overlapPercentage bg reg <
              (rest.map (pctOf bg)).foldl max (overlapPercentage bg reg) := by
            rw [← hpm]
            exact lt_irrefl _
          rw [if_neg hnotlt]
          have hfind : ((reg :: rest).find? fun r =>
              pctOf bg r = ((reg :: rest).map (pctOf bg)).foldl max (pyNumVal mPy))
                = some reg := by
            apply List.find?_cons_of_pos
            simp only [hpct, hM, decide_eq_true_eq]
            exact hpm
          rw [hfind, hM, ← hpm]
          simp
        · have hlt : overlapPercentage bg reg <
              (rest.map (pctOf bg)).foldl max (overlapPercentage bg reg) :=
            lt_of_le_of_ne (le_foldl_max _ _) hpm
          rw [if_pos hlt]
          have hfind : ((reg :: rest).find? fun r =>
              pctOf bg r = ((reg :: rest).map (pctOf bg)).foldl max (pyNumVal mPy))
                = (rest.find? fun r =>
                    pctOf bg r = (rest.map (pctOf bg)).foldl max
                      (overlapPercentage bg reg)) := by
            rw [List.find?_cons_of_neg, hM]
            simp only [hpct, hM, decide_eq_true_eq]
            exact hpm
          rw [hfind, hM]
      · -- the head region does not improve the maximum: state is kept
        have hstep : regionLoop bg (reg :: rest) (c, mPy) =
            regionLoop bg rest (c, mPy) := by
          simp [regionLoop, hI, hbg, hup]
        rw [hstep, ih c mPy hm]
        have hle : overlapPercentage bg reg ≤ pyNumVal mPy := not_lt.mp hup
        have hM : ((reg :: rest).map (pctOf bg)).foldl max (pyNumVal mPy) =
            (rest.map (pctOf bg)).foldl max (pyNumVal mPy) := by
          simp only [List.map_cons, List.foldl_cons, hpct]
          congr 1
          exact max_eq_left hle
        rw [hM]
        by_cases hMr : pyNumVal mPy < (rest.map (pctOf bg)).foldl max (pyNumVal mPy)
        · rw [if_pos hMr, if_pos hMr]
          have hfind : ((reg :: rest).find? fun r =>
              pctOf bg r = (rest.map (pctOf bg)).foldl max (pyNumVal mPy))
                = (rest.find? fun r =>
                    pctOf bg r = (rest.map (pctOf bg)).foldl max (pyNumVal mPy)) := by
            apply List.find?_cons_of_neg
            simp only [hpct, decide_eq_true_eq]
            intro heq
            rw [heq] at hle
            exact absurd hMr (not_lt.mpr hle)
          rw [hfind]
        · rw [if_neg hMr, if_neg hMr]
    · -- intersects test fails: region skipped
      have hpct : pctOf bg reg = 0 := if_neg hI
      have hstep : regionLoop bg (reg :: rest) (c, mPy) =
          regionLoop bg rest (c, mPy) := by
        simp [regionLoop, hI]
      rw [hstep, ih c mPy hm]
      have hM : ((reg :: rest).map (pctOf bg)).foldl max (pyNumVal mPy) =
          (rest.map (pctOf bg)).foldl max (pyNumVal mPy) := by
        simp only [List.map_cons, List.foldl_cons, hpct]
        congr 1
        exact max_eq_left hm
      rw [hM]
      by_cases hMr : pyNumVal mPy < (rest.map (pctOf bg)).foldl max (pyNumVal mPy)
      · rw [if_pos hMr, if_pos hMr]
        have hfind : ((reg :: rest).find? fun r =>
            pctOf bg r = (rest.map (pctOf bg)).foldl max (pyNumVal mPy))
              = (rest.find? fun r =>
                  pctOf bg r = (rest.map (pctOf bg)).foldl max (pyNumVal mPy)) := by
          apply List.find?_cons_of_neg
          simp only [hpct, decide_eq_true_eq]
          intro heq
          rw [← heq] at hMr
          exact absurd hMr (not_lt.mpr hm)
        rw [hfind]
      · rw [if_neg hMr, if_neg hMr]

/-! ### Evaluation helpers -/

lemma overlapPercentage_nonneg {bg : Geom} {reg : Region}
    (h : 0 < geomArea bg) : 0 ≤ overlapPercentage bg reg := by
  unfold overlapPercentage
  have h1 := geomArea_nonneg (geomInter bg [reg.geometry])
  positivity

lemma overlapPercentage_le_100 {bg : Geom} {reg : Region}
    (h : 0 < geomArea bg) : overlapPercentage bg reg ≤ 100 := by
  unfold overlapPercentage
  have h1 := geomArea_inter_le bg [reg.geometry]
  have h2 : geomArea (geomInter bg [reg.geometry]) / geomArea bg ≤ 1 :=
    (div_le_one h).mpr h1
  nlinarith

lemma foldl_max_nonpos {l : List ℚ} (h : ∀ x ∈ l, x ≤ 0) :
    l.foldl max 0 = 0 := by
  induction l with
  | nil => rfl
  | cons p ps ih =>
    simp only [List.foldl_cons, max_eq_left (h p (by simp))]
    exact ih (fun x hx => h x (by simp [hx]))

/-- The region key computed from the loop result, as in line 62 of the code:
the name split before the suffix when a region was selected, the default key
otherwise. -/
def selectedKey (c : Option String) : String :=
  match c with
  | some nm => regionKey nm
  | none => "Tropical_Savanna"

lemma analyze_land_eq (b : List Rect) (c : Option String) (m : PyNum)
    (h : regionLoop (union_all b) BIOGEO_REGIONS (none, PyNum.int 0) = .ok (c, m)) :
    analyze_land b = .ok
      { biogeographic_region := selectedKey c
        recommended_flora := dictGet FLORA_DATABASE (selectedKey c) []
        simulation :=
          { land_area_hectares :=
              PyNum.float (pyRound 2 (geomArea (union_all b) * 10000))
            estimated_trees_year_5 := truncQ (geomArea (union_all b) * 10000 * 100)
            estimated_chickens_year_2 := truncQ (geomArea (union_all b) * 10000 * 50)
            black_soldier_fly_production_kg_week :=
              truncQ (geomArea (union_all b) * 10000 * 2)
            region_overlap_percentage := pyRoundNum 1 m } } := by
  unfold analyze_land
  simp only [h]
  rfl

lemma analyze_land_savanna (b : List Rect)
    (hbg : geomArea (union_all b) ≠ 0)
    (hpct : ∀ reg ∈ BIOGEO_REGIONS, pctOf (union_all b) reg ≤ 0) :
    analyze_land b = .ok
      { biogeographic_region := "Tropical_Savanna"
        recommended_flora := dictGet FLORA_DATABASE "Tropical_Savanna" []
        simulation :=
          { land_area_hectares :=
              PyNum.float (pyRound 2 (geomArea (union_all b) * 10000))
            estimated_trees_year_5 := truncQ (geomArea (union_all b) * 10000 * 100)
            estimated_chickens_year_2 := truncQ (geomArea (union_all b) * 10000 * 50)
            black_soldier_fly_production_kg_week :=
              truncQ (geomArea (union_all b) * 10000 * 2)
            region_overlap_percentage := PyNum.int 0 } } := by
  have hloop := regionLoop_char (union_all b) hbg BIOGEO_REGIONS none
    (PyNum.int 0) (by simp)
  have hM : ((BIOGEO_REGIONS.map (pctOf (union_all b))).foldl max
      (pyNumVal (PyNum.int 0))) = 0 := by
    simp only [pyNumVal_int, Int.cast_zero]
    apply foldl_max_nonpos
    intro x hx
    obtain ⟨reg, hreg, rfl⟩ := List.mem_map.mp hx
    exact hpct reg hreg
  rw [hM] at hloop
  simp only [pyNumVal_int, Int.cast_zero, lt_irrefl, if_false] at hloop
  exact analyze_land_eq b none (PyNum.int 0) hloop

lemma pyRound_int (n : ℕ) (z : ℤ) : pyRound n ((z : ℚ)) = (z : ℚ) := by
  unfold pyRound pyRound0
  have h1 : ((z : ℚ)) * 10 ^ n = ((z * 10 ^ n : ℤ) : ℚ) := by push_cast; ring
  rw [h1, Int.floor_intCast]
  rw [if_pos (by norm_num)]
  have h2 : ((10 : ℚ)) ^ n ≠ 0 := by positivity
  field_simp

lemma truncQ_int (z : ℤ) : truncQ ((z : ℚ)) = z := by
  unfold truncQ
  by_cases h : (0 : ℚ) ≤ (z : ℚ)
  · rw [if_pos h, Int.floor_intCast]
  · rw [if_neg h]
    have : -((z : ℚ)) = ((-z : ℤ) : ℚ) := by push_cast; ring
    rw [this, Int.floor_intCast]
    ring

lemma analyze_land_rainforest (r : Rect)
    (h1 : 33.5 ≤ r.x0) (h2 : r.x0 < r.x1) (h3 : r.x1 ≤ 35.5)
    (h4 : -1.5 ≤ r.y0) (h5 : r.y0 < r.y1) (h6 : r.y1 ≤ 1.5) :
    analyze_land [r] = .ok
      { biogeographic_region := "Tropical_Rainforest"
        recommended_flora := dictGet FLORA_DATABASE "Tropical_Rainforest" []
        simulation :=
          { land_area_hectares :=
              PyNum.float (pyRound 2 (geomArea (union_all [r]) * 10000))
            estimated_trees_year_5 := truncQ (geomArea (union_all [r]) * 10000 * 100)
            estimated_chickens_year_2 := truncQ (geomArea (union_all [r]) * 10000 * 50)
            black_soldier_fly_production_kg_week :=
              truncQ (geomArea (union_all [r]) * 10000 * 2)
            region_overlap_percentage := PyNum.float 100 } } := by
  obtain ⟨x0, x1, y0, y1⟩ := r
  simp only at h1 h2 h3 h4 h5 h6
  have harea : geomArea [Rect.mk x0 x1 y0 y1] = (x1 - x0) * (y1 - y0) := by
    rw [geomArea_single]
    simp only
    rw [max_eq_right (by linarith : (0 : ℚ) ≤ x1 - x0),
      max_eq_right (by linarith : (0 : ℚ) ≤ y1 - y0)]
  have hpos : 0 < geomArea [Rect.mk x0 x1 y0 y1] := by
    rw [harea]
    nlinarith
  have hI1 : geomIntersects [Rect.mk x0 x1 y0 y1] [Rect.mk 33.5 35.5 (-1.5) 1.5]
      = true := by
    simp only [geomIntersects, List.any_cons, List.any_nil, Bool.or_false,
      rectIntersects, decide_eq_true_eq]
    constructor
    · rw [max_eq_left h1, min_eq_left h3]
      exact h2.le
    · rw [max_eq_left h4, min_eq_left h6]
      exact h5.le
  have hinter1 : geomInter [Rect.mk x0 x1 y0 y1] [Rect.mk 33.5 35.5 (-1.5) 1.5]
      = [Rect.mk x0 x1 y0 y1] := by
    simp only [geomInter, List.flatMap_cons, List.map_cons, List.map_nil,
      List.flatMap_nil, List.append_nil, rectInter]
    rw [max_eq_left h1, min_eq_left h3, max_eq_left h4, min_eq_left h6]
  have hpct1 : overlapPercentage [Rect.mk x0 x1 y0 y1]
      ⟨"Tropical_Rainforest_Region", Rect.mk 33.5 35.5 (-1.5) 1.5⟩ = 100 := by
    unfold overlapPercentage
    simp only
    rw [hinter1, div_self hpos.ne']
    ring
  have hI2 : geomIntersects [Rect.mk x0 x1 y0 y1] [Rect.mk 36.0 38.0 (-2.0) 0.5]
      = false := by
    simp only [geomIntersects, List.any_cons, List.any_nil, Bool.or_false,
      rectIntersects, decide_eq_false_iff_not]
    rintro ⟨hx, -⟩
    have hb : (36.0 : ℚ) ≤ x1 :=
      le_trans (le_trans (le_max_right _ _) hx) (min_le_left _ _)
    norm_num at hb h3
    linarith
  have hcomp : pyNumVal (PyNum.int 0) < overlapPercentage [Rect.mk x0 x1 y0 y1]
      ⟨"Tropical_Rainforest_Region", Rect.mk 33.5 35.5 (-1.5) 1.5⟩ := by
    rw [hpct1]
    simp only [pyNumVal_int, Int.cast_zero]
    norm_num
  have hloop : regionLoop [Rect.mk x0 x1 y0 y1] BIOGEO_REGIONS
      (none, PyNum.int 0) =
      .ok (some "Tropical_Rainforest_Region", PyNum.float 100) := by
    simp only [BIOGEO_REGIONS, regionLoop, hI1, hI2, hpos.ne', if_true,
      if_false, ite_true, ite_false, Prod.snd, hcomp, reduceIte, hpct1]
    norm_num [pyNumVal_int]
  have hplan := analyze_land_eq [Rect.mk x0 x1 y0 y1]
    (some "Tropical_Rainforest_Region") (PyNum.float 100) hloop
  rw [hplan]
  have h100 : pyRound 1 ((100 : ℚ)) = 100 := by
    have h := pyRound_int 1 (100 : ℤ)
    exact_mod_cast h
  have hkey : selectedKey (some "Tropical_Rainforest_Region") =
      "Tropical_Rainforest" := by decide
  simp only [pyRoundNum, h100, hkey]

lemma regionLoop_error_of_intersect {b : List Rect}
    (hz : geomArea (union_all b) = 0) :
    ∀ (regs : List Region) (st : Option String × PyNum),
      (∃ reg ∈ regs, geomIntersects (union_all b) [reg.geometry] = true) →
      regionLoop (union_all b) regs st = .error AnalyzeError.zeroDivisionError := by
  intro regs
  induction regs with
  | nil =>
    rintro st ⟨reg, hmem, -⟩
    simp at hmem
  | cons reg rest ih =>
    rintro st ⟨r, hr, hint⟩
    rcases List.mem_cons.mp hr with heq | hr2
    · subst heq
      simp [regionLoop, hint, hz]
    · by_cases hI : geomIntersects (union_all b) [reg.geometry] = true
      · simp [regionLoop, hI, hz]
      · simp only [regionLoop, hI, if_false, ite_false, Bool.false_eq_true]
        exact ih st ⟨r, hr2, hint⟩

lemma regionLoop_skip_all (b : List Rect) :
    ∀ (regs : List Region) (st : Option String × PyNum),
      (∀ reg ∈ regs, geomIntersects (union_all b) [reg.geometry] = false) →
      regionLoop (union_all b) regs st = .ok st := by
  intro regs
  induction regs with
  | nil => intro st _; simp [regionLoop]
  | cons reg rest ih =>
    intro st hall
    have hI : geomIntersects (union_all b) [reg.geometry] = false :=
      hall reg (by simp)
    simp only [regionLoop, hI, Bool.false_eq_true, if_false, ite_false]
    exact ih st (fun r hr => hall r (by simp [hr]))

lemma analyze_land_error_eq (b : List Rect) (e : AnalyzeError)
    (h : regionLoop (union_all b) BIOGEO_REGIONS (none, PyNum.int 0) = .error e) :
    analyze_land b = .error e := by
  unfold analyze_land
  simp only [h]

/-! ### String helpers for the report structure -/

lemma strFoldlAppend (l : List String) (a : String) :
    l.foldl (· ++ ·) a = a ++ l.foldl (· ++ ·) "" := by
  induction l generalizing a with
  | nil => simp [String.append_empty]
  | cons x xs ih =>
    simp only [List.foldl_cons]
    rw [ih (a ++ x), ih ("" ++ x), String.empty_append, String.append_assoc]

lemma strJoin_cons (x : String) (xs : List String) :
    String.join (x :: xs) = x ++ String.join xs := by
  simp only [String.join, List.foldl_cons]
  rw [strFoldlAppend xs ("" ++ x), String.empty_append]

lemma strJoin_nil : String.join [] = "" := rfl

lemma strJoin_append (a b : List String) :
    String.join (a ++ b) = String.join a ++ String.join b := by
  induction a with
  | nil => simp [strJoin_nil, String.empty_append]
  | cons x xs ih =>
    simp only [List.cons_append, strJoin_cons, ih, String.append_assoc]

/-- One flora bullet line of the report (without the newline). -/
def floraLine (f : FloraEntry) : String :=
  "* " ++ f.name ++ " (" ++ f.type ++ ") - " ++ f.chicken_benefit

lemma flora_foldl (l : List FloraEntry) (acc : String) :
    l.foldl (fun acc flora =>
      acc ++ "* " ++ flora.name ++ " (" ++ flora.type ++ ") - "
        ++ flora.chicken_benefit ++ "\n") acc
      = acc ++ String.join (l.map fun f => floraLine f ++ "\n") := by
  induction l generalizing acc with
  | nil => simp [strJoin_nil, String.append_empty]
  | cons f fs ih =>
    simp only [List.foldl_cons, List.map_cons, strJoin_cons]
    rw [ih]
    simp [floraLine, String.append_assoc]

/-- The exact line structure of the report in section 6 of the specification,
as an ordered list of lines (values vary with the plan). -/
def specReportLines (plan : Plan) : List String :=
  ["CLIMATECHIC RESTORATION PLAN",
   "=========================" ++ "=========================",
   "Region: " ++ plan.biogeographic_region,
   "Area: " ++ pyNumRepr plan.simulation.land_area_hectares ++ " hectares",
   "Region Overlap: " ++ pyNumRepr plan.simulation.region_overlap_percentage
     ++ "%",
   "",
   "RECOMMENDED FLORA:"]
  ++ plan.recommended_flora.map floraLine
  ++ ["",
      "PROJECTIONS:",
      "* Trees (Year 5): " ++ toString plan.simulation.estimated_trees_year_5,
      "* Chickens (Year 2): "
        ++ toString plan.simulation.estimated_chickens_year_2,
      "* BSF Production: "
        ++ toString plan.simulation.black_soldier_fly_production_kg_week
        ++ " kg/week",
      "",
      "OPERATIONAL GUIDELINES:",
      "* Months 1-3: Soil preparation and pioneer species planting",
      "* Months 4-6: Introduce nitrogen-fixing plants and cover crops",
      "* Months 7-12: Establish poultry infrastructure and initial flock",
      "* Year 2: Scale integrated systems and value-added production"]

/-- The report assembled from the specification lines, each line followed by
a newline. -/
def specReport (plan : Plan) : String :=
  String.join ((specReportLines plan).map (fun ln => ln ++ "\n"))

set_option maxRecDepth 10000 in
lemma report_structure (plan : Plan) :
    generate_plan_report plan = specReport plan := by
  simp only [generate_plan_report, specReport, specReportLines]
  rw [flora_foldl]
  simp only [List.map_append, List.map_cons, List.map_nil, List.map_map,
    strJoin_append, strJoin_cons, strJoin_nil, Function.comp,
    String.append_empty, String.append_assoc]
  rfl

/-! ### Fixed-decimal rendering (the reading of the rendering claim) and
concrete evaluation vectors -/

/-- Rendering with exactly two decimal digits, following the claim that the
Area figure is rendered to two decimal places. -/
def fixedRepr2 (v : PyNum) : String :=
  let q := pyNumVal v
  let sign := if q < 0 then "-" else ""
  let a := |q|
  let ip := ⌊a⌋
  let d2 := ⌊(a - ip) * 100⌋
  sign ++ toString ip ++ "." ++
    (if d2 < 10 then "0" ++ toString d2 else toString d2)

/-- Rendering with exactly one decimal digit, following the claim that the
Region Overlap figure is rendered to one decimal place. -/
def fixedRepr1 (v : PyNum) : String :=
  let q := pyNumVal v
  let sign := if q < 0 then "-" else ""
  let a := |q|
  let ip := ⌊a⌋
  let d1 := ⌊(a - ip) * 10⌋
  sign ++ toString ip ++ "." ++ toString d1

/-- The report lines under the fixed-decimal reading of the claim. -/
def specReportLinesFixed (plan : Plan) : List String :=
  ["CLIMATECHIC RESTORATION PLAN",
   "=========================" ++ "=========================",
   "Region: " ++ plan.biogeographic_region,
   "Area: " ++ fixedRepr2 plan.simulation.land_area_hectares ++ " hectares",
   "Region Overlap: " ++ fixedRepr1 plan.simulation.region_overlap_percentage
     ++ "%",
   "",
   "RECOMMENDED FLORA:"]
  ++ plan.recommended_flora.map floraLine
  ++ ["",
      "PROJECTIONS:",
      "* Trees (Year 5): " ++ toString plan.simulation.estimated_trees_year_5,
      "* Chickens (Year 2): "
        ++ toString plan.simulation.estimated_chickens_year_2,
      "* BSF Production: "
        ++ toString plan.simulation.black_soldier_fly_production_kg_week
        ++ " kg/week",
      "",
      "OPERATIONAL GUIDELINES:",
      "* Months 1-3: Soil preparation and pioneer species planting",
      "* Months 4-6: Introduce nitrogen-fixing plants and cover crops",
      "* Months 7-12: Establish poultry infrastructure and initial flock",
      "* Year 2: Scale integrated systems and value-added production"]

/-- The report as the claim reads it: spec structure with the Area figure at
two decimal places and the overlap at one. -/
def specReportFixed (plan : Plan) : String :=
  String.join ((specReportLinesFixed plan).map (fun ln => ln ++ "\n"))

/-- The Plan the analysis produces for a unit square boundary away from both
regions (raw area 1, hence 10000 hectares). -/
def planSquareOne : Plan :=
  { biogeographic_region := "Tropical_Savanna"
    recommended_flora :=
      [⟨"Acacia tortilis", "Tree", "Shade, pods for forage"⟩,
       ⟨"Cenchrus ciliaris", "Grass", "Drought-resistant forage"⟩]
    simulation :=
      { land_area_hectares := PyNum.float 10000
        estimated_trees_year_5 := 1000000
        estimated_chickens_year_2 := 500000
        black_soldier_fly_production_kg_week := 20000
        region_overlap_percentage := PyNum.int 0 } }

lemma floatRepr_10000 : floatRepr (10000 : ℚ) = "10000.0" := by
  have e1 : ¬ (10000 : ℚ) < 0 := by norm_num
  have e2 : |(10000 : ℚ)| = 10000 := by norm_num
  have e3 : ⌊(10000 : ℚ)⌋ = (10000 : ℤ) := by norm_num
  simp only [floatRepr, e2, e3, if_neg e1]
  have e4 : ((10000 : ℚ) - ((10000 : ℤ) : ℚ)) * 100 = 0 := by norm_num
  rw [e4]
  have e5 : ⌊(0 : ℚ)⌋ = (0 : ℤ) := by norm_num
  rw [e5]
  rfl

lemma fixedRepr2_float_10000 : fixedRepr2 (PyNum.float 10000) = "10000.00" := by
  have e1 : ¬ (10000 : ℚ) < 0 := by norm_num
  have e2 : |(10000 : ℚ)| = 10000 := by norm_num
  have e3 : ⌊(10000 : ℚ)⌋ = (10000 : ℤ) := by norm_num
  simp only [fixedRepr2, pyNumVal_float, e2, e3, if_neg e1]
  have e4 : ((10000 : ℚ) - ((10000 : ℤ) : ℚ)) * 100 = 0 := by norm_num
  rw [e4]
  have e5 : ⌊(0 : ℚ)⌋ = (0 : ℤ) := by norm_num
  rw [e5]
  rfl

lemma fixedRepr1_int_0 : fixedRepr1 (PyNum.int 0) = "0.0" := by
  have e0 : pyNumVal (PyNum.int 0) = (0 : ℚ) := by simp
  have e1 : ¬ (0 : ℚ) < 0 := by norm_num
  have e2 : |(0 : ℚ)| = 0 := abs_zero
  have e3 : ⌊(0 : ℚ)⌋ = (0 : ℤ) := by norm_num
  simp only [fixedRepr1, e0, e2, e3, if_neg e1]
  have e4 : ((0 : ℚ) - ((0 : ℤ) : ℚ)) * 10 = 0 := by norm_num
  rw [e4, e3]
  rfl

set_option maxRecDepth 10000 in
lemma report_planSquareOne :
    generate_plan_report planSquareOne =
      "CLIMATECHIC RESTORATION PLAN\n=========================" ++ "=========================\nRegion: Tropical_Savanna\nArea: 10000.0 hectares\nRegion Overlap: 0%\n\nRECOMMENDED FLORA:\n* Acacia tortilis (Tree) - Shade, pods for forage\n* Cenchrus ciliaris (Grass) - Drought-resistant forage\n\nPROJECTIONS:\n* Trees (Year 5): 1000000\n* Chickens (Year 2): 500000\n* BSF Production: 20000 kg/week\n\nOPERATIONAL GUIDELINES:\n* Months 1-3: Soil preparation and pioneer species planting\n* Months 4-6: Introduce nitrogen-fixing plants and cover crops\n* Months 7-12: Establish poultry infrastructure and initial flock\n* Year 2: Scale integrated systems and value-added production\n" := by
  simp only [generate_plan_report, planSquareOne, pyNumRepr, floatRepr_10000]
  rfl

set_option maxRecDepth 10000 in
lemma fixedReport_planSquareOne :
    specReportFixed planSquareOne =
      "CLIMATECHIC RESTORATION PLAN\n=========================" ++ "=========================\nRegion: Tropical_Savanna\nArea: 10000.00 hectares\nRegion Overlap: 0.0%\n\nRECOMMENDED FLORA:\n* Acacia tortilis (Tree) - Shade, pods for forage\n* Cenchrus ciliaris (Grass) - Drought-resistant forage\n\nPROJECTIONS:\n* Trees (Year 5): 1000000\n* Chickens (Year 2): 500000\n* BSF Production: 20000 kg/week\n\nOPERATIONAL GUIDELINES:\n* Months 1-3: Soil preparation and pioneer species planting\n* Months 4-6: Introduce nitrogen-fixing plants and cover crops\n* Months 7-12: Establish poultry infrastructure and initial flock\n* Year 2: Scale integrated systems and value-added production\n" := by
  simp only [specReportFixed, specReportLinesFixed, planSquareOne,
    fixedRepr2_float_10000, fixedRepr1_int_0]
  rfl

lemma rectIntersects_false_of_x {r s : Rect} (h : s.x1 < r.x0 ∨ r.x1 < s.x0) :
    rectIntersects r s = false := by
  simp only [rectIntersects, decide_eq_false_iff_not, not_and]
  intro hx
  exfalso
  rcases h with h | h
  · have h1 : r.x0 ≤ min r.x1 s.x1 := le_trans (le_max_left _ _) hx
    have h2 : r.x0 ≤ s.x1 := le_trans h1 (min_le_right _ _)
    linarith
  · have h1 : s.x0 ≤ min r.x1 s.x1 := le_trans (le_max_right _ _) hx
    have h2 : s.x0 ≤ r.x1 := le_trans h1 (min_le_left _ _)
    linarith

lemma geomIntersects_singleton (b s : Rect) :
    geomIntersects [b] [s] = rectIntersects b s := by
  simp [geomIntersects]

lemma pctOf_nonpos_of_no_intersect {bg : Geom} {reg : Region}
    (h : geomIntersects bg [reg.geometry] = false) : pctOf bg reg ≤ 0 := by
  unfold pctOf
  rw [if_neg (by simp [h])]

lemma left_rect_no_intersect {r : Rect} (h : r.x1 < 33.5) :
    ∀ reg ∈ BIOGEO_REGIONS,
      geomIntersects (union_all [r]) [reg.geometry] = false := by
  intro reg hreg
  simp only [BIOGEO_REGIONS, List.mem_cons, List.not_mem_nil, or_false] at hreg
  rcases hreg with rfl | rfl
  · simp only [union_all]
    rw [geomIntersects_singleton]
    exact rectIntersects_false_of_x (Or.inr (by simpa using h))
  · simp only [union_all]
    rw [geomIntersects_singleton]
    refine rectIntersects_false_of_x (Or.inr ?_)
    simp only
    norm_num at h ⊢
    linarith

/-! ### Remaining concrete-run helpers -/

lemma analyze_land_zero_ok (b : List Rect) (hz : geomArea (union_all b) = 0)
    (hall : ∀ reg ∈ BIOGEO_REGIONS,
      geomIntersects (union_all b) [reg.geometry] = false) :
    analyze_land b = .ok
      { biogeographic_region := "Tropical_Savanna"
        recommended_flora := dictGet FLORA_DATABASE "Tropical_Savanna" []
        simulation :=
          { land_area_hectares := PyNum.float 0
            estimated_trees_year_5 := 0
            estimated_chickens_year_2 := 0
            black_soldier_fly_production_kg_week := 0
            region_overlap_percentage := PyNum.int 0 } } := by
  have heq := analyze_land_eq b none (PyNum.int 0)
    (regionLoop_skip_all b BIOGEO_REGIONS _ hall)
  rw [hz] at heq
  have e2 : (0 : ℚ) * 10000 * 100 = 0 := by norm_num
  have e3 : (0 : ℚ) * 10000 * 50 = 0 := by norm_num
  have e4 : (0 : ℚ) * 10000 * 2 = 0 := by norm_num
  have e1 : (0 : ℚ) * 10000 = 0 := by norm_num
  rw [e2, e3, e4, e1] at heq
  rw [show pyRound 2 ((0 : ℚ)) = (0 : ℚ) from by exact_mod_cast pyRound_int 2 0,
    show truncQ ((0 : ℚ)) = (0 : ℤ) from by exact_mod_cast truncQ_int 0,
    show selectedKey none = "Tropical_Savanna" from rfl] at heq
  exact heq

lemma analyze_unit_square :
    analyze_land [(⟨0, 1, 0, 1⟩ : Rect)] = .ok planSquareOne := by
  have harea : geomArea (union_all [(⟨0, 1, 0, 1⟩ : Rect)]) = 1 := by
    simp only [union_all]
    rw [geomArea_single]
    norm_num
  have hok := analyze_land_savanna [(⟨0, 1, 0, 1⟩ : Rect)]
    (by rw [harea]; norm_num)
    (fun reg hreg => pctOf_nonpos_of_no_intersect
      (left_rect_no_intersect (by norm_num) reg hreg))
  rw [harea] at hok
  have e2 : (1 : ℚ) * 10000 * 100 = 1000000 := by norm_num
  have e3 : (1 : ℚ) * 10000 * 50 = 500000 := by norm_num
  have e4 : (1 : ℚ) * 10000 * 2 = 20000 := by norm_num
  have e1 : (1 : ℚ) * 10000 = 10000 := by norm_num
  rw [e2, e3, e4, e1] at hok
  rw [show pyRound 2 ((10000 : ℚ)) = (10000 : ℚ) from by
      exact_mod_cast pyRound_int 2 10000,
    show truncQ ((1000000 : ℚ)) = (1000000 : ℤ) from by
      exact_mod_cast truncQ_int 1000000,
    show truncQ ((500000 : ℚ)) = (500000 : ℤ) from by
      exact_mod_cast truncQ_int 500000,
    show truncQ ((20000 : ℚ)) = (20000 : ℤ) from by
      exact_mod_cast truncQ_int 20000] at hok
  rw [show dictGet FLORA_DATABASE "Tropical_Savanna" [] =
      [(⟨"Acacia tortilis", "Tree", "Shade, pods for forage"⟩ : FloraEntry),
       ⟨"Cenchrus ciliaris", "Grass", "Drought-resistant forage"⟩] from rfl] at hok
  exact hok

/-! ### The claims -/

/-- C1, counterexample: the claim says a zero-area boundary makes
analyze_land fail with an InvalidBoundary error and produce no Plan.  On the
code, the degenerate collinear boundary rectangle with corners (0,0) and
(0,1) has zero area, intersects no region, and analyze_land silently returns
a degenerate Plan with the default biome and all projections zero. -/
theorem c1_counterexample :
    geomArea (union_all [(⟨0, 0, 0, 1⟩ : Rect)]) = 0 ∧
    analyze_land [(⟨0, 0, 0, 1⟩ : Rect)] = .ok
      { biogeographic_region := "Tropical_Savanna"
        recommended_flora :=
          [⟨"Acacia tortilis", "Tree", "Shade, pods for forage"⟩,
           ⟨"Cenchrus ciliaris", "Grass", "Drought-resistant forage"⟩]
        simulation :=
          { land_area_hectares := PyNum.float 0
            estimated_trees_year_5 := 0
            estimated_chickens_year_2 := 0
            black_soldier_fly_production_kg_week := 0
            region_overlap_percentage := PyNum.int 0 } } := by
  have hz : geomArea (union_all [(⟨0, 0, 0, 1⟩ : Rect)]) = 0 := by
    simp only [union_all]
    rw [geomArea_single]
    norm_num
  refine ⟨hz, ?_⟩
  have h := analyze_land_zero_ok [(⟨0, 0, 0, 1⟩ : Rect)] hz
    (left_rect_no_intersect (by norm_num))
  rw [show dictGet FLORA_DATABASE "Tropical_Savanna" [] =
      [(⟨"Acacia tortilis", "Tree", "Shade, pods for forage"⟩ : FloraEntry),
       ⟨"Cenchrus ciliaris", "Grass", "Drought-resistant forage"⟩] from rfl] at h
  exact h

/-- C1, amended: analyze_land performs no zero-area validation.  For a
boundary of zero area, if some region passes the intersects test the division
raises ZeroDivisionError (no Plan, but not an InvalidBoundary pre-check);
if no region intersects, the function silently returns a degenerate Plan with
the default biome, zero projections and overlap 0. -/
theorem c1_amended (b : List Rect) (hz : geomArea (union_all b) = 0) :
    ((∃ reg ∈ BIOGEO_REGIONS,
        geomIntersects (union_all b) [reg.geometry] = true) →
      analyze_land b = .error AnalyzeError.zeroDivisionError) ∧
    ((∀ reg ∈ BIOGEO_REGIONS,
        geomIntersects (union_all b) [reg.geometry] = false) →
      analyze_land b = .ok
        { biogeographic_region := "Tropical_Savanna"
          recommended_flora := dictGet FLORA_DATABASE "Tropical_Savanna" []
          simulation :=
            { land_area_hectares := PyNum.float 0
              estimated_trees_year_5 := 0
              estimated_chickens_year_2 := 0
              black_soldier_fly_production_kg_week := 0
              region_overlap_percentage := PyNum.int 0 } }) := by
  constructor
  · intro hex
    exact analyze_land_error_eq b _
      (regionLoop_error_of_intersect hz BIOGEO_REGIONS _ hex)
  · intro hall
    exact analyze_land_zero_ok b hz hall

/-- C1 witness: a degenerate zero-area boundary lying on the border of the
first region triggers the ZeroDivisionError branch of the amended claim. -/
theorem c1_witness :
    analyze_land [(⟨33.5, 33.5, 0, 1⟩ : Rect)] =
      .error AnalyzeError.zeroDivisionError := by
  have hz : geomArea (union_all [(⟨33.5, 33.5, 0, 1⟩ : Rect)]) = 0 := by
    simp only [union_all]
    rw [geomArea_single]
    norm_num
  refine (c1_amended _ hz).1
    ⟨⟨"Tropical_Rainforest_Region", ⟨33.5, 35.5, -1.5, 1.5⟩⟩,
      by simp [BIOGEO_REGIONS], ?_⟩
  simp only [union_all]
  rw [geomIntersects_singleton]
  simp only [rectIntersects, decide_eq_true_eq]
  norm_num [max_def, min_def]

/-- C2: for every boundary with positive merged area and every region, the
overlap percentage computed by the loop equals (intersection area / boundary
area) * 100 and lies in the closed interval from 0 to 100. -/
theorem c2_overlap_bounds (b : List Rect) (reg : Region)
    (hpos : 0 < geomArea (union_all b)) :
    overlapPercentage (union_all b) reg =
      geomArea (geomInter (union_all b) [reg.geometry]) /
        geomArea (union_all b) * 100 ∧
    0 ≤ overlapPercentage (union_all b) reg ∧
    overlapPercentage (union_all b) reg ≤ 100 :=
  ⟨rfl, overlapPercentage_nonneg hpos, overlapPercentage_le_100 hpos⟩

/-- C2 witness: the bounds instantiated at a concrete unit square boundary
inside the first region. -/
theorem c2_witness :
    0 ≤ overlapPercentage (union_all [(⟨34, 35, 0, 1⟩ : Rect)])
        ⟨"Tropical_Rainforest_Region", ⟨33.5, 35.5, -1.5, 1.5⟩⟩ ∧
    overlapPercentage (union_all [(⟨34, 35, 0, 1⟩ : Rect)])
        ⟨"Tropical_Rainforest_Region", ⟨33.5, 35.5, -1.5, 1.5⟩⟩ ≤ 100 := by
  have hpos : 0 < geomArea (union_all [(⟨34, 35, 0, 1⟩ : Rect)]) := by
    simp only [union_all]
    rw [geomArea_single]
    norm_num
  exact (c2_overlap_bounds [(⟨34, 35, 0, 1⟩ : Rect)]
    ⟨"Tropical_Rainforest_Region", ⟨33.5, 35.5, -1.5, 1.5⟩⟩ hpos).2

/-- The maximum considered overlap over a region list, starting from 0, in
list order. -/
def specMaxOverlap (bg : Geom) (regs : List Region) : ℚ :=
  (regs.map (pctOf bg)).foldl max 0

/-- The selected region name: the first region in list order attaining the
maximum, provided it is strictly positive; no other tie-break. -/
def specSelected (bg : Geom) (regs : List Region) : Option String :=
  if 0 < specMaxOverlap bg regs then
    (regs.find? fun reg => pctOf bg reg = specMaxOverlap bg regs).map
      Region.name
  else none

/-- C3: the region loop iterates in list order tracking the maximum overlap
with a strict-greater-than comparison, so the earliest region attaining the
maximal overlap is selected and no other tie-break applies. -/
theorem c3_first_max (bg : Geom) (regs : List Region)
    (hbg : geomArea bg ≠ 0) :
    regionLoop bg regs (none, PyNum.int 0) =
      .ok (specSelected bg regs,
        if 0 < specMaxOverlap bg regs then
          PyNum.float (specMaxOverlap bg regs)
        else PyNum.int 0) := by
  have h := regionLoop_char bg hbg regs none (PyNum.int 0) (by simp)
  simp only [pyNumVal_int, Int.cast_zero] at h
  rw [h]
  unfold specSelected specMaxOverlap
  by_cases hM : (0 : ℚ) < (regs.map (pctOf bg)).foldl max 0
  · rw [if_pos hM, if_pos hM, if_pos hM]
  · rw [if_neg hM, if_neg hM, if_neg hM]

/-- C3 witness: two custom regions each overlapping exactly half of the
boundary tie at 50 percent; the loop selects the earlier one. -/
theorem c3_witness :
    regionLoop [(⟨0, 2, 0, 1⟩ : Rect)]
      [⟨"A", ⟨0, 1, 0, 1⟩⟩, ⟨"B", ⟨1, 2, 0, 1⟩⟩] (none, PyNum.int 0) =
      .ok (some "A", PyNum.float 50) := by
  have harea : geomArea [(⟨0, 2, 0, 1⟩ : Rect)] = 2 := by
    rw [geomArea_single]
    norm_num
  have hbg : geomArea [(⟨0, 2, 0, 1⟩ : Rect)] ≠ 0 := by
    rw [harea]
    norm_num
  have hIA : geomIntersects [(⟨0, 2, 0, 1⟩ : Rect)] [(⟨0, 1, 0, 1⟩ : Rect)]
      = true := by
    rw [geomIntersects_singleton]
    simp only [rectIntersects, decide_eq_true_eq]
    norm_num [max_def, min_def]
  have hIB : geomIntersects [(⟨0, 2, 0, 1⟩ : Rect)] [(⟨1, 2, 0, 1⟩ : Rect)]
      = true := by
    rw [geomIntersects_singleton]
    simp only [rectIntersects, decide_eq_true_eq]
    norm_num [max_def, min_def]
  have hInterA : geomInter [(⟨0, 2, 0, 1⟩ : Rect)] [(⟨0, 1, 0, 1⟩ : Rect)]
      = [(⟨0, 1, 0, 1⟩ : Rect)] := by
    simp only [geomInter, List.flatMap_cons, List.map_cons, List.map_nil,
      List.flatMap_nil, List.append_nil, rectInter]
    norm_num [max_def, min_def]
  have hInterB : geomInter [(⟨0, 2, 0, 1⟩ : Rect)] [(⟨1, 2, 0, 1⟩ : Rect)]
      = [(⟨1, 2, 0, 1⟩ : Rect)] := by
    simp only [geomInter, List.flatMap_cons, List.map_cons, List.map_nil,
      List.flatMap_nil, List.append_nil, rectInter]
    norm_num [max_def, min_def]
  have hpA : pctOf [(⟨0, 2, 0, 1⟩ : Rect)] ⟨"A", ⟨0, 1, 0, 1⟩⟩ = 50 := by
    unfold pctOf
    rw [if_pos hIA]
    unfold overlapPercentage
    dsimp only
    rw [hInterA, harea, geomArea_single]
    norm_num
  have hpB : pctOf [(⟨0, 2, 0, 1⟩ : Rect)] ⟨"B", ⟨1, 2, 0, 1⟩⟩ = 50 := by
    unfold pctOf
    rw [if_pos hIB]
    unfold overlapPercentage
    dsimp only
    rw [hInterB, harea, geomArea_single]
    norm_num
  have hmax : specMaxOverlap [(⟨0, 2, 0, 1⟩ : Rect)]
      [⟨"A", ⟨0, 1, 0, 1⟩⟩, ⟨"B", ⟨1, 2, 0, 1⟩⟩] = 50 := by
    unfold specMaxOverlap
    simp only [List.map_cons, List.map_nil, hpA, hpB, List.foldl_cons,
      List.foldl_nil]
    norm_num [max_def]
  have hsel : specSelected [(⟨0, 2, 0, 1⟩ : Rect)]
      [⟨"A", ⟨0, 1, 0, 1⟩⟩, ⟨"B", ⟨1, 2, 0, 1⟩⟩] = some "A" := by
    unfold specSelected
    rw [if_pos (by rw [hmax]; norm_num)]
    rw [hmax]
    rw [List.find?_cons_of_pos _ (by simp [hpA])]
    rfl
  rw [c3_first_max [(⟨0, 2, 0, 1⟩ : Rect)]
    [⟨"A", ⟨0, 1, 0, 1⟩⟩, ⟨"B", ⟨1, 2, 0, 1⟩⟩] hbg, hsel, hmax,
    if_pos (by norm_num : (0 : ℚ) < 50)]

/-- C4: the derived projection numbers of a produced Plan are a pure
function of the merged boundary area: the hectare figure is the area times
10000 (stored rounded to two decimals), and trees, chickens and weekly BSF
production are the raw hectare figure times 100, 50 and 2 respectively,
each truncated toward zero, not rounded. -/
theorem c4_projections (b : List Rect) (p : Plan)
    (h : analyze_land b = .ok p) :
    p.simulation.land_area_hectares =
      PyNum.float (pyRound 2 (geomArea (union_all b) * 10000)) ∧
    p.simulation.estimated_trees_year_5 =
      truncQ (geomArea (union_all b) * 10000 * 100) ∧
    p.simulation.estimated_chickens_year_2 =
      truncQ (geomArea (union_all b) * 10000 * 50) ∧
    p.simulation.black_soldier_fly_production_kg_week =
      truncQ (geomArea (union_all b) * 10000 * 2) := by
  cases hl : regionLoop (union_all b) BIOGEO_REGIONS (none, PyNum.int 0) with
  | error e =>
    rw [analyze_land_error_eq b e hl] at h
    simp at h
  | ok st =>
    obtain ⟨c, m⟩ := st
    rw [analyze_land_eq b c m hl] at h
    injection h with h
    subst h
    exact ⟨rfl, rfl, rfl, rfl⟩

/-- C4 witness: for the unit square boundary (area 1) the projections are
10000 hectares, 1000000 trees, 500000 chickens and 20000 kg/week. -/
theorem c4_witness :
    planSquareOne.simulation.land_area_hectares =
      PyNum.float (pyRound 2 (geomArea (union_all [(⟨0, 1, 0, 1⟩ : Rect)])
        * 10000)) ∧
    planSquareOne.simulation.estimated_trees_year_5 =
      truncQ (geomArea (union_all [(⟨0, 1, 0, 1⟩ : Rect)]) * 10000 * 100) ∧
    planSquareOne.simulation.estimated_chickens_year_2 =
      truncQ (geomArea (union_all [(⟨0, 1, 0, 1⟩ : Rect)]) * 10000 * 50) ∧
    planSquareOne.simulation.black_soldier_fly_production_kg_week =
      truncQ (geomArea (union_all [(⟨0, 1, 0, 1⟩ : Rect)]) * 10000 * 2) :=
  c4_projections [(⟨0, 1, 0, 1⟩ : Rect)] planSquareOne analyze_unit_square

/-- C5: for any boundary rectangle lying strictly inside the first sample
region, analyze_land returns a Plan with biome key Tropical_Rainforest,
overlap percentage 100.0 and exactly the three rainforest flora entries. -/
theorem c5_rainforest (r : Rect)
    (h1 : 33.5 ≤ r.x0) (h2 : r.x0 < r.x1) (h3 : r.x1 ≤ 35.5)
    (h4 : -1.5 ≤ r.y0) (h5 : r.y0 < r.y1) (h6 : r.y1 ≤ 1.5) :
    analyze_land [r] = .ok
      { biogeographic_region := "Tropical_Rainforest"
        recommended_flora :=
          [⟨"Leucaena leucocephala", "Tree", "High-protein forage, shade"⟩,
           ⟨"Moringa oleifera", "Tree", "Vitamins, minerals, forage"⟩,
           ⟨"Paspalum notatum", "Grass", "Ground cover, forage"⟩]
        simulation :=
          { land_area_hectares :=
              PyNum.float (pyRound 2 (geomArea (union_all [r]) * 10000))
            estimated_trees_year_5 :=
              truncQ (geomArea (union_all [r]) * 10000 * 100)
            estimated_chickens_year_2 :=
              truncQ (geomArea (union_all [r]) * 10000 * 50)
            black_soldier_fly_production_kg_week :=
              truncQ (geomArea (union_all [r]) * 10000 * 2)
            region_overlap_percentage := PyNum.float 100 } } := by
  have h := analyze_land_rainforest r h1 h2 h3 h4 h5 h6
  rw [show dictGet FLORA_DATABASE "Tropical_Rainforest" [] =
      [(⟨"Leucaena leucocephala", "Tree", "High-protein forage, shade"⟩ :
          FloraEntry),
       ⟨"Moringa oleifera", "Tree", "Vitamins, minerals, forage"⟩,
       ⟨"Paspalum notatum", "Grass", "Ground cover, forage"⟩] from rfl] at h
  exact h

/-- C5 witness: the concrete rectangle with corners (34, 0) and (35, 1) lies
inside the first region and yields the rainforest plan. -/
theorem c5_witness :
    analyze_land [(⟨34, 35, 0, 1⟩ : Rect)] = .ok
      { biogeographic_region := "Tropical_Rainforest"
        recommended_flora :=
          [⟨"Leucaena leucocephala", "Tree", "High-protein forage, shade"⟩,
           ⟨"Moringa oleifera", "Tree", "Vitamins, minerals, forage"⟩,
           ⟨"Paspalum notatum", "Grass", "Ground cover, forage"⟩]
        simulation :=
          { land_area_hectares :=
              PyNum.float (pyRound 2 (geomArea
                (union_all [(⟨34, 35, 0, 1⟩ : Rect)]) * 10000))
            estimated_trees_year_5 :=
              truncQ (geomArea (union_all [(⟨34, 35, 0, 1⟩ : Rect)])
                * 10000 * 100)
            estimated_chickens_year_2 :=
              truncQ (geomArea (union_all [(⟨34, 35, 0, 1⟩ : Rect)])
                * 10000 * 50)
            black_soldier_fly_production_kg_week :=
              truncQ (geomArea (union_all [(⟨34, 35, 0, 1⟩ : Rect)])
                * 10000 * 2)
            region_overlap_percentage := PyNum.float 100 } } :=
  c5_rainforest ⟨34, 35, 0, 1⟩ (by norm_num) (by norm_num) (by norm_num)
    (by norm_num) (by norm_num) (by norm_num)

/-- C6: the boundary rows are merged into a single union and all area
computations use it: for pairwise-disjoint pieces the combined area is the
sum of the pieces, and each overlap percentage is computed from the area of
the intersection of the union with the region divided by the area of the
union. -/
theorem c6_union (b : List Rect)
    (h : b.Pairwise fun r s => rectIntersects r s = false) :
    geomArea (union_all b) = (b.map fun r => geomArea [r]).sum ∧
    ∀ reg : Region, overlapPercentage (union_all b) reg =
      geomArea (geomInter (union_all b) [reg.geometry]) /
        geomArea (union_all b) * 100 :=
  ⟨geomArea_pairwise_sum h, fun _ => rfl⟩

/-- C6 witness: two disjoint unit squares have combined area equal to the
sum of their areas. -/
theorem c6_witness :
    geomArea (union_all [(⟨0, 1, 0, 1⟩ : Rect), ⟨2, 3, 0, 1⟩]) =
      geomArea [(⟨0, 1, 0, 1⟩ : Rect)] + geomArea [(⟨2, 3, 0, 1⟩ : Rect)] := by
  have hp : List.Pairwise (fun r s => rectIntersects r s = false)
      [(⟨0, 1, 0, 1⟩ : Rect), ⟨2, 3, 0, 1⟩] := by
    refine List.pairwise_cons.mpr ⟨?_, List.pairwise_singleton _ _⟩
    intro s hs
    rw [List.mem_singleton] at hs
    subst hs
    exact rectIntersects_false_of_x (Or.inr (by norm_num))
  have h := (c6_union [(⟨0, 1, 0, 1⟩ : Rect), ⟨2, 3, 0, 1⟩] hp).1
  simpa using h

/-- C7: when the selected biome key is absent from the flora table the
operation does not raise: the recommended flora of a produced Plan is always
the dict.get of its biome key with an empty-list default, a key absent from
the table yields the empty list, and the only error the analysis can raise
is the division by zero, never a lookup error. -/
theorem c7_missing_lookup :
    (∀ (b : List Rect) (p : Plan), analyze_land b = .ok p →
      p.recommended_flora =
        dictGet FLORA_DATABASE p.biogeographic_region []) ∧
    (∀ (d : List (String × List FloraEntry)) (k : String),
      d.find? (fun kv => kv.1 == k) = none → dictGet d k [] = []) ∧
    (∀ (b : List Rect) (e : AnalyzeError), analyze_land b = .error e →
      e = AnalyzeError.zeroDivisionError) := by
  refine ⟨?_, ?_, ?_⟩
  · intro b p h
    cases hl : regionLoop (union_all b) BIOGEO_REGIONS (none, PyNum.int 0) with
    | error e =>
      rw [analyze_land_error_eq b e hl] at h
      simp at h
    | ok st =>
      obtain ⟨c, m⟩ := st
      rw [analyze_land_eq b c m hl] at h
      injection h with h
      subst h
      rfl
  · intro d k h
    unfold dictGet
    rw [h]
  · intro b e _
    cases e
    rfl

/-- C7 witness: the flora field of a concrete produced Plan is the table
lookup of its biome key, and looking up a key absent from the table (here
Alpine) yields the empty list rather than an error. -/
theorem c7_witness :
    planSquareOne.recommended_flora =
      dictGet FLORA_DATABASE planSquareOne.biogeographic_region [] ∧
    dictGet FLORA_DATABASE "Alpine" [] = [] :=
  ⟨c7_missing_lookup.1 [(⟨0, 1, 0, 1⟩ : Rect)] planSquareOne
      analyze_unit_square,
   c7_missing_lookup.2.1 FLORA_DATABASE "Alpine" rfl⟩

/-- C8, counterexample: the claim says the report renders the Area figure to
two decimal places and the overlap to one.  The code interpolates the
rounded values with the default number formatting: for the unit-square Plan
the report reads Area: 10000.0 hectares and Region Overlap: 0 percent, not
the fixed two- and one-decimal renderings. -/
theorem c8_counterexample :
    generate_plan_report planSquareOne ≠ specReportFixed planSquareOne := by
  rw [report_planSquareOne, fixedReport_planSquareOne]
  decide

/-- C8, amended: the report has exactly the line structure of the spec (same
lines, order and presence) with the values interpolated by the default
int/float repr, and the Plan stores the overlap rounded to one decimal
place and the hectare figure rounded to two (their values are integer
multiples of 1/10 and 1/100 respectively). -/
theorem c8_amended :
    (∀ plan : Plan, generate_plan_report plan = specReport plan) ∧
    (∀ (b : List Rect) (p : Plan), analyze_land b = .ok p →
      (∃ z : ℤ, pyNumVal p.simulation.land_area_hectares = (z : ℚ) / 100) ∧
      (∃ w : ℤ,
        pyNumVal p.simulation.region_overlap_percentage = (w : ℚ) / 10)) := by
  refine ⟨report_structure, ?_⟩
  intro b p h
  cases hl : regionLoop (union_all b) BIOGEO_REGIONS (none, PyNum.int 0) with
  | error e =>
    rw [analyze_land_error_eq b e hl] at h
    simp at h
  | ok st =>
    obtain ⟨c, m⟩ := st
    rw [analyze_land_eq b c m hl] at h
    injection h with h
    subst h
    constructor
    · refine ⟨pyRound0 (geomArea (union_all b) * 10000 * 10 ^ 2), ?_⟩
      simp only [pyNumVal_float]
      unfold pyRound
      norm_num
    · cases m with
      | int z =>
        refine ⟨z * 10, ?_⟩
        simp only [pyRoundNum, pyNumVal_int]
        push_cast
        rw [mul_div_assoc]
        norm_num
      | float q =>
        refine ⟨pyRound0 (q * 10 ^ 1), ?_⟩
        simp only [pyRoundNum, pyNumVal_float]
        unfold pyRound
        norm_num

/-- C8 witness: the amended statement instantiated at the unit-square Plan. -/
theorem c8_witness :
    generate_plan_report planSquareOne = specReport planSquareOne ∧
    (∃ z : ℤ,
      pyNumVal planSquareOne.simulation.land_area_hectares = (z : ℚ) / 100) ∧
    (∃ w : ℤ,
      pyNumVal planSquareOne.simulation.region_overlap_percentage =
        (w : ℚ) / 10) :=
  ⟨c8_amended.1 planSquareOne,
   c8_amended.2 [(⟨0, 1, 0, 1⟩ : Rect)] planSquareOne analyze_unit_square⟩

/-- C9: the analysis is a pure deterministic function of its boundary input
and the two read-only tables: identical inputs give identical Plan results
(the embedding is side-effect free by construction, so purity is expressed
as determinism). -/
theorem c9_deterministic (b1 b2 : List Rect) (h : b1 = b2) :
    analyze_land b1 = analyze_land b2 := by
  rw [h]

/-- C9 witness: determinism at a concrete boundary. -/
theorem c9_witness :
    analyze_land [(⟨0, 1, 0, 1⟩ : Rect)] =
      analyze_land [(⟨0, 1, 0, 1⟩ : Rect)] :=
  c9_deterministic [(⟨0, 1, 0, 1⟩ : Rect)] [(⟨0, 1, 0, 1⟩ : Rect)] rfl

/-- C10: whenever no region attains a strictly positive overlap percentage,
including regions that pass the intersects test with a zero-area
intersection, the default key Tropical_Savanna is selected (no region is
ever selected on a zero percentage, because the running maximum starts at 0
and is replaced only by a strictly greater value) and the reported overlap
percentage is the int 0. -/
theorem c10_savanna_fallback (b : List Rect)
    (hbg : geomArea (union_all b) ≠ 0)
    (hpct : ∀ reg ∈ BIOGEO_REGIONS, pctOf (union_all b) reg ≤ 0) :
    analyze_land b = .ok
      { biogeographic_region := "Tropical_Savanna"
        recommended_flora := dictGet FLORA_DATABASE "Tropical_Savanna" []
        simulation :=
          { land_area_hectares :=
              PyNum.float (pyRound 2 (geomArea (union_all b) * 10000))
            estimated_trees_year_5 :=
              truncQ (geomArea (union_all b) * 10000 * 100)
            estimated_chickens_year_2 :=
              truncQ (geomArea (union_all b) * 10000 * 50)
            black_soldier_fly_production_kg_week :=
              truncQ (geomArea (union_all b) * 10000 * 2)
            region_overlap_percentage := PyNum.int 0 } } :=
  analyze_land_savanna b hbg hpct

/-- C10 witness: a unit square touching the second region only along its
border (zero-area intersection) falls back to the savanna default with
reported overlap 0. -/
theorem c10_witness :
    analyze_land [(⟨38, 39, -1, 0⟩ : Rect)] = .ok
      { biogeographic_region := "Tropical_Savanna"
        recommended_flora := dictGet FLORA_DATABASE "Tropical_Savanna" []
        simulation :=
          { land_area_hectares :=
              PyNum.float (pyRound 2 (geomArea
                (union_all [(⟨38, 39, -1, 0⟩ : Rect)]) * 10000))
            estimated_trees_year_5 :=
              truncQ (geomArea (union_all [(⟨38, 39, -1, 0⟩ : Rect)])
                * 10000 * 100)
            estimated_chickens_year_2 :=
              truncQ (geomArea (union_all [(⟨38, 39, -1, 0⟩ : Rect)])
                * 10000 * 50)
            black_soldier_fly_production_kg_week :=
              truncQ (geomArea (union_all [(⟨38, 39, -1, 0⟩ : Rect)])
                * 10000 * 2)
            region_overlap_percentage := PyNum.int 0 } } := by
  have hbg : geomArea (union_all [(⟨38, 39, -1, 0⟩ : Rect)]) ≠ 0 := by
    simp only [union_all]
    rw [geomArea_single]
    norm_num
  have hpct2 : overlapPercentage (union_all [(⟨38, 39, -1, 0⟩ : Rect)])
      ⟨"Tropical_Savanna_Region", ⟨36.0, 38.0, -2.0, 0.5⟩⟩ = 0 := by
    unfold overlapPercentage
    dsimp only
    simp only [union_all]
    rw [show geomInter [(⟨38, 39, -1, 0⟩ : Rect)]
        [(⟨36.0, 38.0, -2.0, 0.5⟩ : Rect)] = [(⟨38, 38, -1, 0⟩ : Rect)] from by
      simp only [geomInter, List.flatMap_cons, List.map_cons, List.map_nil,
        List.flatMap_nil, List.append_nil, rectInter]
      norm_num [max_def, min_def]]
    rw [show geomArea [(⟨38, 38, -1, 0⟩ : Rect)] = 0 from by
      rw [geomArea_single]
      norm_num]
    simp
  apply c10_savanna_fallback
  · exact hbg
  · intro reg hreg
    simp only [BIOGEO_REGIONS, List.mem_cons, List.not_mem_nil, or_false]
      at hreg
    rcases hreg with rfl | rfl
    · apply pctOf_nonpos_of_no_intersect
      simp only [union_all]
      rw [geomIntersects_singleton]
      refine rectIntersects_false_of_x (Or.inl ?_)
      norm_num
    · unfold pctOf
      split_ifs with hI
      · rw [hpct2]
      · exact le_refl 0
